import Mathlib

/-!
# Verification of the aetos language front end

Shallow embedding of the aetos compiler/interpreter pipeline (lexer, parser
fragment, type checker, optimizer constant-folding pass, tree-walking
interpreter) together with proofs settling the specification claims.

Conventions of the embedding:
* Rust `i32` values are represented by their mathematical value (`Int`);
  arithmetic that can overflow is performed modulo 2^32 into the signed
  range via `wrap32` (release-mode wrapping semantics).
* Rust `f32` values are represented by the opaque wrapper `F32`; IEEE-754
  arithmetic is abstracted (none of the verified claims evaluates a float
  operation).
* `HashMap<String, V>` is represented by an association list with
  replace-or-append insertion, which preserves the map's observable
  lookup behaviour.
* Fallible Rust code (`Result`, and panics) is modelled with `Except`.
* Unbounded recursion of the interpreter is modelled with a fuel
  parameter; exhausted fuel is a distinguished error that the source
  program cannot produce.
-/

namespace Aetos

/-- Wrap an integer into the signed 32-bit range, modelling Rust `i32`
wrap-around arithmetic. -/
def wrap32 (n : Int) : Int :=
  (n + 2 ^ 31) % 2 ^ 32 - 2 ^ 31

/-- `i32` addition (wrapping). -/
def i32add (a b : Int) : Int := wrap32 (a + b)

/-- `i32` subtraction (wrapping). -/
def i32sub (a b : Int) : Int := wrap32 (a - b)

/-- `i32` multiplication (wrapping). -/
def i32mul (a b : Int) : Int := wrap32 (a * b)

/-- `i32` division: Rust `/` truncates toward zero (`Int.div`); the single
overflowing case `i32::MIN / -1` (a Rust panic) is wrapped. -/
def i32div (a b : Int) : Int := wrap32 (Int.tdiv a b)

/-- Abstract model of Rust `f32`. The payload is an opaque code; IEEE-754
semantics are not modelled because no verified claim depends on them. -/
structure F32 where
  code : Int
deriving DecidableEq

/-- Abstracted `f32` addition. -/
def f32add (a b : F32) : F32 := ⟨a.code + b.code⟩

/-- Abstracted `f32` subtraction. -/
def f32sub (a b : F32) : F32 := ⟨a.code - b.code⟩

/-- Abstracted `f32` multiplication. -/
def f32mul (a b : F32) : F32 := ⟨a.code * b.code⟩

/-- Abstracted `f32` division. -/
def f32div (a _b : F32) : F32 := ⟨a.code⟩

/-- Abstracted `f32` ordering. -/
def f32lt (a b : F32) : Bool := a.code < b.code

/-- Abstracted `f32` ordering. -/
def f32le (a b : F32) : Bool := a.code ≤ b.code

/-- Abstracted `i32 as f32` conversion. -/
def intToF32 (i : Int) : F32 := ⟨i⟩

/-- Abstracted `f32 as i32` conversion. -/
def f32ToInt (f : F32) : Int := wrap32 f.code

/-- The `f32` zero, used for the `== 0.0` tests of the source. -/
def f32zero : F32 := ⟨0⟩

/-! ## AST (`ast.rs`) -/

/-- `ast.rs` `Type`. Named `Ty` because `Type` is reserved in Lean. -/
inductive Ty where
  | I32
  | I64
  | F32
  | F64
  | Bool
  | String
  | Void
  | Struct (name : String)
deriving DecidableEq

/-- `ast.rs` `BinaryOperator`. -/
inductive BinaryOperator where
  | Add
  | Subtract
  | Multiply
  | Divide
  | Eq
  | Neq
  | Lt
  | Gt
  | Lte
  | Gte
  | And
  | Or
deriving DecidableEq

/-- `ast.rs` `Expression`. -/
inductive Expression where
  | IntegerLiteral (value : Int)
  | FloatLiteral (value : F32)
  | StringLiteral (value : String)
  | BoolLiteral (value : Bool)
  | BinaryExpression (left : Expression) (operator : BinaryOperator) (right : Expression)
  | Variable (name : String)
  | FunctionCall (name : String) (args : List Expression)
  | StructInitialization (struct_name : String) (fields : List (String × Expression))
  | FieldAccess (expression : Expression) (field_name : String)
  | TypeCast (expression : Expression) (target_type : Ty)
  | Move (expression : Expression)
  | Borrow (expression : Expression) (mutable : Bool)

/-- `ast.rs` `Statement`. -/
inductive Statement where
  | VariableDeclaration (name : String) (var_type : Ty) (value : Expression) (mutable : Bool)
  | Assignment (name : String) (value : Expression)
  | Return (value : Expression)
  | Expression (expr : Expression)
  | Block (statements : List Statement)
  | While (condition : Expression) (body : List Statement)
  | If (condition : Expression) (then_branch : List Statement)
       (else_branch : Option (List Statement))

/-- `ast.rs` `Parameter`. -/
structure Parameter where
  name : String
  param_type : Ty
deriving DecidableEq

/-- `ast.rs` `Function`. -/
structure Function where
  name : String
  params : List Parameter
  return_type : Ty
  body : List Statement

/-- `ast.rs` `StructField`. -/
structure StructField where
  name : String
  field_type : Ty
deriving DecidableEq

/-- `ast.rs` `Struct`. -/
structure Struct where
  name : String
  fields : List StructField
deriving DecidableEq

/-- `ast.rs` `Program`. -/
structure Program where
  functions : List Function
  structs : List Struct

/-- `impl fmt::Display for Type` (`ast.rs`). -/
def displayTy : Ty → String
  | .I32 => "i32"
  | .I64 => "i64"
  | .F32 => "f32"
  | .F64 => "f64"
  | .Bool => "bool"
  | .String => "string"
  | .Void => "void"
  | .Struct name => name

/-! ## Association lists modelling `HashMap<String, V>` -/

/-- `HashMap::get`: first value stored under the key, if any. -/
def alookup {α : Type} : List (String × α) → String → Option α
  | [], _ => none
  | (k, v) :: rest, key => if k = key then some v else alookup rest key

/-- `HashMap::insert`: replace the value under an existing key, otherwise
append the binding. -/
def ainsert {α : Type} : List (String × α) → String → α → List (String × α)
  | [], key, v => [(key, v)]
  | (k, w) :: rest, key, v =>
      if k = key then (k, v) :: rest else (k, w) :: ainsert rest key v

theorem alookup_ainsert_self {α : Type} (l : List (String × α)) (key : String) (v : α) :
    alookup (ainsert l key v) key = some v := by
  induction l with
  | nil => simp [ainsert, alookup]
  | cons hd tl ih =>
      obtain ⟨k, w⟩ := hd
      by_cases h : k = key
      · simp [ainsert, alookup, h]
      · simp [ainsert, alookup, h, ih]

theorem alookup_ainsert_ne {α : Type} (l : List (String × α)) (key key2 : String) (v : α)
    (h : key ≠ key2) : alookup (ainsert l key v) key2 = alookup l key2 := by
  induction l with
  | nil => simp [ainsert, alookup, h]
  | cons hd tl ih =>
      obtain ⟨k, w⟩ := hd
      by_cases hk : k = key
      · subst hk; simp [ainsert, alookup, h]
      · simp only [ainsert, if_neg hk]
        by_cases hk2 : k = key2 <;> simp [alookup, hk2, ih]

/-- Reduction of a successful `Except` bind (used to unfold the monadic
embedding in proofs). -/
theorem except_ok_bind {ε α β : Type} (a : α) (f : α → Except ε β) :
    (Except.ok a >>= f : Except ε β) = f a := rfl

/-- Reduction of a failed `Except` bind. -/
theorem except_error_bind {ε α β : Type} (e : ε) (f : α → Except ε β) :
    (Except.error e >>= f : Except ε β) = .error e := rfl

/-- `pure` in the `Except` monad is `Except.ok`. -/
theorem except_pure_eq {ε α : Type} (a : α) :
    (pure a : Except ε α) = Except.ok a := rfl

/-! ## Optimizer: constant folding (`optimize.rs`) -/

/-- The literal-combination step of `fold_constants_in_expression`
(`optimize.rs`, lines 190-239): given the already-folded operands, fold a
binary expression over integer or boolean literals, leaving division by the
literal `0` (and every non-literal combination) unchanged. -/
def fold_literal_binop : Expression → BinaryOperator → Expression → Expression
  | .IntegerLiteral a, .Add, .IntegerLiteral b => .IntegerLiteral (i32add a b)
  | .IntegerLiteral a, .Subtract, .IntegerLiteral b => .IntegerLiteral (i32sub a b)
  | .IntegerLiteral a, .Multiply, .IntegerLiteral b => .IntegerLiteral (i32mul a b)
  | .IntegerLiteral a, .Divide, .IntegerLiteral b =>
      if b ≠ 0 then .IntegerLiteral (i32div a b)
      else .BinaryExpression (.IntegerLiteral a) .Divide (.IntegerLiteral b)
  | .IntegerLiteral a, .Eq, .IntegerLiteral b => .BoolLiteral (a = b)
  | .IntegerLiteral a, .Neq, .IntegerLiteral b => .BoolLiteral (a ≠ b)
  | .IntegerLiteral a, .Lt, .IntegerLiteral b => .BoolLiteral (a < b)
  | .IntegerLiteral a, .Gt, .IntegerLiteral b => .BoolLiteral (a > b)
  | .IntegerLiteral a, .Lte, .IntegerLiteral b => .BoolLiteral (a ≤ b)
  | .IntegerLiteral a, .Gte, .IntegerLiteral b => .BoolLiteral (a ≥ b)
  | .BoolLiteral a, .And, .BoolLiteral b => .BoolLiteral (a && b)
  | .BoolLiteral a, .Or, .BoolLiteral b => .BoolLiteral (a || b)
  | left, op, right => .BinaryExpression left op right

mutual

/-- `Optimizer::fold_constants_in_expression` (`optimize.rs`, lines 183-285):
bottom-up constant folding of binary expressions over integer and boolean
literals; division by a literal zero is not folded. -/
def fold_constants_in_expression : Expression → Expression
  | .BinaryExpression l op r =>
      fold_literal_binop (fold_constants_in_expression l) op (fold_constants_in_expression r)
  | .TypeCast e target_type => .TypeCast (fold_constants_in_expression e) target_type
  | .FunctionCall name args => .FunctionCall name (fold_args args)
  | .StructInitialization sname fields => .StructInitialization sname (fold_fields fields)
  | .FieldAccess e field_name => .FieldAccess (fold_constants_in_expression e) field_name
  | .Move e => .Move (fold_constants_in_expression e)
  | .Borrow e mutable => .Borrow (fold_constants_in_expression e) mutable
  | other => other

/-- Folding mapped over the argument list of a call (`args.into_iter().map(...)`). -/
def fold_args : List Expression → List Expression
  | [] => []
  | e :: rest => fold_constants_in_expression e :: fold_args rest

/-- Folding mapped over the field list of a struct initializer. -/
def fold_fields : List (String × Expression) → List (String × Expression)
  | [] => []
  | (n, e) :: rest => (n, fold_constants_in_expression e) :: fold_fields rest

end

/-- C1. For all 32-bit integer literals `a`, `b` and every fold-eligible
operator in `{+, -, *, ==, !=, <, >, <=, >=}`, the constant-folding pass
rewrites `BinaryExpression(IntegerLiteral a, op, IntegerLiteral b)` to the
single literal whose value equals direct `i32` evaluation of `a op b`
(an `IntegerLiteral` for arithmetic, a `BoolLiteral` for comparisons),
while a division whose right operand is the literal `0` is left
unchanged. -/
theorem fold_literal_binary_expressions :
    (∀ a b : Int, fold_constants_in_expression
        (.BinaryExpression (.IntegerLiteral a) .Add (.IntegerLiteral b)) =
        .IntegerLiteral (i32add a b)) ∧
    (∀ a b : Int, fold_constants_in_expression
        (.BinaryExpression (.IntegerLiteral a) .Subtract (.IntegerLiteral b)) =
        .IntegerLiteral (i32sub a b)) ∧
    (∀ a b : Int, fold_constants_in_expression
        (.BinaryExpression (.IntegerLiteral a) .Multiply (.IntegerLiteral b)) =
        .IntegerLiteral (i32mul a b)) ∧
    (∀ a b : Int, fold_constants_in_expression
        (.BinaryExpression (.IntegerLiteral a) .Eq (.IntegerLiteral b)) =
        .BoolLiteral (a = b)) ∧
    (∀ a b : Int, fold_constants_in_expression
        (.BinaryExpression (.IntegerLiteral a) .Neq (.IntegerLiteral b)) =
        .BoolLiteral (a ≠ b)) ∧
    (∀ a b : Int, fold_constants_in_expression
        (.BinaryExpression (.IntegerLiteral a) .Lt (.IntegerLiteral b)) =
        .BoolLiteral (a < b)) ∧
    (∀ a b : Int, fold_constants_in_expression
        (.BinaryExpression (.IntegerLiteral a) .Gt (.IntegerLiteral b)) =
        .BoolLiteral (a > b)) ∧
    (∀ a b : Int, fold_constants_in_expression
        (.BinaryExpression (.IntegerLiteral a) .Lte (.IntegerLiteral b)) =
        .BoolLiteral (a ≤ b)) ∧
    (∀ a b : Int, fold_constants_in_expression
        (.BinaryExpression (.IntegerLiteral a) .Gte (.IntegerLiteral b)) =
        .BoolLiteral (a ≥ b)) ∧
    (∀ a : Int, fold_constants_in_expression
        (.BinaryExpression (.IntegerLiteral a) .Divide (.IntegerLiteral 0)) =
        .BinaryExpression (.IntegerLiteral a) .Divide (.IntegerLiteral 0)) := by
  refine ⟨?_, ?_, ?_, ?_, ?_, ?_, ?_, ?_, ?_, ?_⟩ <;>
    intros <;> simp [fold_constants_in_expression, fold_literal_binop]

/-! ## Type checker (`typecheck.rs`) -/

/-- `typecheck.rs` `TypeCheckError`. The extra `Panic` constructor models a
Rust panic (`expect`), which aborts instead of returning an error. -/
inductive TypeCheckError where
  | TypeMismatch (expected found : Ty)
  | UndefinedVariable (name : String)
  | UndefinedFunction (name : String)
  | UndefinedStruct (name : String)
  | UndefinedField (struct_name field : String)
  | ParameterCountMismatch (expected found : Nat)
  | DuplicateVariable (name : String)
  | DuplicateFunction (name : String)
  | DuplicateStruct (name : String)
  | InvalidReturnType (expected found : Ty)
  | VariableAlreadyMoved (name : String)
  | UseAfterMove (name : String)
  | NonBooleanCondition (found : Ty)
  | Panic (message : String)
deriving DecidableEq

/-- `typecheck.rs` `VariableState`. -/
inductive VariableState where
  | Available
  | Moved
  | Borrowed
deriving DecidableEq

/-- `typecheck.rs` `VariableInfo`. -/
structure VariableInfo where
  var_type : Ty
  state : VariableState
deriving DecidableEq

/-- `typecheck.rs` `FunctionInfo`. -/
structure FunctionInfo where
  return_type : Ty
  params : List Ty
deriving DecidableEq

/-- `typecheck.rs` `StructInfo` (field map as an association list). -/
structure StructInfo where
  fields : List (String × Ty)
deriving DecidableEq

/-- `typecheck.rs` `TypeChecker` state. The source field `variables` is
named `vars` because `variables` is a reserved command name in Lean. -/
structure TypeChecker where
  vars : List (String × VariableInfo)
  functions : List (String × FunctionInfo)
  structs : List (String × StructInfo)
  current_function_return : Option Ty
deriving DecidableEq

/-- `TypeChecker::types_are_compatible` (`typecheck.rs`, lines 419-439). -/
def types_are_compatible (expected actual : Ty) : Bool :=
  if expected = actual then true
  else
    match expected, actual with
    | .F32, .I32 => true
    | .F64, .I32 => true
    | .F64, .F32 => true
    | .I64, .I32 => true
    | .F32, .F32 => true
    | .I32, .I32 => true
    | .F64, .F64 => true
    | .I64, .I64 => true
    | _, _ => false

/-- `TypeChecker::get_common_numeric_type` (`typecheck.rs`, lines 441-455). -/
def get_common_numeric_type (left right : Ty) : Option Ty :=
  if left = right then some left
  else
    match left, right with
    | .F32, .I32 | .I32, .F32 => some .F32
    | .F64, .I32 | .I32, .F64 => some .F64
    | .F64, .F32 | .F32, .F64 => some .F64
    | .I64, .I32 | .I32, .I64 => some .I64
    | _, _ => none

/-- `self.variables.get_mut(name)` followed by `var_info.state = st`
(a no-op when the variable is absent, matching the `if let Some` guard). -/
def set_variable_state : List (String × VariableInfo) → String → VariableState →
    List (String × VariableInfo)
  | [], _, _ => []
  | (k, vi) :: rest, name, st =>
      if k = name then (k, { vi with state := st }) :: rest
      else (k, vi) :: set_variable_state rest name st

mutual

/-- `TypeChecker::check_expression` (`typecheck.rs`, lines 457-651). The
`&mut self` receiver is modelled by returning the updated checker state. -/
def check_expression (tc : TypeChecker) : Expression → Except TypeCheckError (TypeChecker × Ty)
  | .IntegerLiteral _ => .ok (tc, .I32)
  | .FloatLiteral _ => .ok (tc, .F32)
  | .StringLiteral _ => .ok (tc, .String)
  | .BoolLiteral _ => .ok (tc, .Bool)
  | .Variable name =>
      match alookup tc.vars name with
      | none => .error (.UndefinedVariable name)
      | some var_info =>
          match var_info.state with
          | .Moved => .error (.UseAfterMove name)
          | _ => .ok (tc, var_info.var_type)
  | .BinaryExpression left operator right => do
      let (tc1, left_type) ← check_expression tc left
      let (tc2, right_type) ← check_expression tc1 right
      match operator with
      | .Add | .Subtract | .Multiply | .Divide =>
          match get_common_numeric_type left_type right_type with
          | some common_type => .ok (tc2, common_type)
          | none => .error (.TypeMismatch left_type right_type)
      | .Eq | .Neq | .Lt | .Gt | .Lte | .Gte =>
          if (get_common_numeric_type left_type right_type).isSome then .ok (tc2, .Bool)
          else .error (.TypeMismatch left_type right_type)
      | .And | .Or =>
          if left_type ≠ .Bool ∨ right_type ≠ .Bool then
            .error (.TypeMismatch .Bool (if left_type ≠ .Bool then left_type else right_type))
          else .ok (tc2, .Bool)
  | .FunctionCall name args =>
      match alookup tc.functions name with
      | none => .error (.UndefinedFunction name)
      | some function_info =>
          if args.length ≠ function_info.params.length then
            .error (.ParameterCountMismatch function_info.params.length args.length)
          else do
            let tc1 ← check_call_args tc args function_info.params
            .ok (tc1, function_info.return_type)
  | .StructInitialization struct_name fields =>
      match alookup tc.structs struct_name with
      | none => .error (.UndefinedStruct struct_name)
      | some struct_info => do
          let tc1 ← check_init_fields tc struct_name struct_info.fields fields
          .ok (tc1, .Struct struct_name)
  | .FieldAccess expression field_name => do
      let (tc1, expr_type) ← check_expression tc expression
      match expr_type with
      | .Struct struct_name =>
          match alookup tc1.structs struct_name with
          | none => .error (.UndefinedStruct struct_name)
          | some struct_info =>
              match alookup struct_info.fields field_name with
              | none => .error (.UndefinedField struct_name field_name)
              | some field_type => .ok (tc1, field_type)
      | other => .error (.TypeMismatch (.Struct "any") other)
  | .Move expression => do
      let (tc1, expr_type) ← check_expression tc expression
      match expression with
      | .Variable name =>
          .ok ({ tc1 with vars := set_variable_state tc1.vars name .Moved }, expr_type)
      | _ => .ok (tc1, expr_type)
  | .Borrow expression _ => do
      let (tc1, expr_type) ← check_expression tc expression
      match expression with
      | .Variable name =>
          .ok ({ tc1 with vars := set_variable_state tc1.vars name .Borrowed }, expr_type)
      | _ => .ok (tc1, expr_type)
  | .TypeCast expression target_type => do
      let (tc1, expr_type) ← check_expression tc expression
      match expr_type, target_type with
      | .I32, .F32 => .ok (tc1, Ty.F32)
      | .F32, .I32 => .ok (tc1, Ty.I32)
      | .I32, .I64 => .ok (tc1, Ty.I64)
      | .I64, .I32 => .ok (tc1, Ty.I32)
      | .F32, .F64 => .ok (tc1, Ty.F64)
      | .F64, .F32 => .ok (tc1, Ty.F32)
      | same, same2 =>
          if same = same2 then .ok (tc1, target_type)
          else .error (.TypeMismatch target_type expr_type)

/-- The argument-checking loop of the `FunctionCall` case
(`args.iter().zip(&function_info.params)`). -/
def check_call_args (tc : TypeChecker) : List Expression → List Ty →
    Except TypeCheckError TypeChecker
  | [], _ => .ok tc
  | _, [] => .ok tc
  | arg :: args, expected_type :: params => do
      let (tc1, arg_type) ← check_expression tc arg
      if types_are_compatible expected_type arg_type then check_call_args tc1 args params
      else .error (.TypeMismatch expected_type arg_type)

/-- The provided-field loop of the `StructInitialization` case
(`typecheck.rs`, lines 566-580): only the fields present in the initializer
are looked up and checked. -/
def check_init_fields (tc : TypeChecker) (struct_name : String)
    (struct_fields : List (String × Ty)) :
    List (String × Expression) → Except TypeCheckError TypeChecker
  | [] => .ok tc
  | (field_name, field_expr) :: rest =>
      match alookup struct_fields field_name with
      | none => .error (.UndefinedField struct_name field_name)
      | some expected_type => do
          let (tc1, actual_type) ← check_expression tc field_expr
          if types_are_compatible expected_type actual_type then
            check_init_fields tc1 struct_name struct_fields rest
          else .error (.TypeMismatch expected_type actual_type)

end

mutual

/-- `TypeChecker::check_statement` (`typecheck.rs`, lines 286-417). -/
def check_statement (tc : TypeChecker) : Statement → Except TypeCheckError TypeChecker
  | .VariableDeclaration name var_type value _ =>
      if (alookup tc.vars name).isSome then .error (.DuplicateVariable name)
      else do
        let (tc1, expr_type) ← check_expression tc value
        if ¬ types_are_compatible var_type expr_type then
          .error (.TypeMismatch var_type expr_type)
        else
          .ok { tc1 with vars := ainsert tc1.vars name ⟨var_type, .Available⟩ }
  | .Assignment name value => do
      let (tc1, expr_type) ← check_expression tc value
      match alookup tc1.vars name with
      | none => .error (.UndefinedVariable name)
      | some var_info =>
          if ¬ types_are_compatible var_info.var_type expr_type then
            .error (.TypeMismatch var_info.var_type expr_type)
          else .ok tc1
  | .Return value =>
      match tc.current_function_return with
      | none => .error (.Panic "Return outside of function")
      | some return_type => do
          let (tc1, expr_type) ← check_expression tc value
          if ¬ types_are_compatible return_type expr_type then
            .error (.InvalidReturnType return_type expr_type)
          else .ok tc1
  | .Expression expr => do
      let (tc1, _) ← check_expression tc expr
      .ok tc1
  | .Block statements => do
      let tc1 ← check_statement_seq tc statements
      .ok { tc1 with vars := tc.vars }
  | .While condition body => do
      let (tc1, cond_type) ← check_expression tc condition
      if cond_type ≠ .Bool then .error (.NonBooleanCondition cond_type)
      else do
        let tc2 ← check_statement_seq tc1 body
        .ok { tc2 with vars := tc1.vars }
  | .If condition then_branch else_branch => do
      let (tc1, cond_type) ← check_expression tc condition
      if cond_type ≠ .Bool then .error (.NonBooleanCondition cond_type)
      else do
        let tc2 ← check_statement_seq tc1 then_branch
        let tc3 ← match else_branch with
          | some eb => check_statement_seq { tc2 with vars := tc1.vars } eb
          | none => .ok { tc2 with vars := tc1.vars }
        .ok { tc3 with vars := tc1.vars }

/-- The `for statement in ...` loop threading the checker through a
statement list. -/
def check_statement_seq (tc : TypeChecker) : List Statement →
    Except TypeCheckError TypeChecker
  | [] => .ok tc
  | st :: rest => do
      let tc1 ← check_statement tc st
      check_statement_seq tc1 rest

end

/-- Concrete checker state used by the witnesses: variable `x : i32`
available, `m : bool` moved, `b : string` borrowed, one function
`f(f32) -> void`, one struct `P { v : i64 }`. -/
def tcExample : TypeChecker :=
  { vars := [("x", ⟨.I32, .Available⟩), ("m", ⟨.Bool, .Moved⟩), ("b", ⟨.String, .Borrowed⟩)]
    functions := [("f", ⟨.Void, [.F32]⟩)]
    structs := [("P", ⟨[("v", .I64)]⟩)]
    current_function_return := some .I32 }

/-- C4. Reading a `Moved` variable always fails with `UseAfterMove`, while
reading or moving a `Borrowed` variable is never rejected on account of its
state (asymmetric with `Moved`). -/
theorem moved_vs_borrowed_variable_access :
    (∀ (tc : TypeChecker) (name : String) (t : Ty),
        alookup tc.vars name = some ⟨t, .Moved⟩ →
        check_expression tc (.Variable name) = .error (.UseAfterMove name)) ∧
    (∀ (tc : TypeChecker) (name : String) (t : Ty),
        alookup tc.vars name = some ⟨t, .Borrowed⟩ →
        check_expression tc (.Variable name) = .ok (tc, t)) ∧
    (∀ (tc : TypeChecker) (name : String) (t : Ty),
        alookup tc.vars name = some ⟨t, .Borrowed⟩ →
        check_expression tc (.Move (.Variable name)) =
          .ok ({ tc with vars := set_variable_state tc.vars name .Moved }, t)) := by
  refine ⟨?_, ?_, ?_⟩ <;> intro tc name t h <;> simp [check_expression, h, except_ok_bind]

/-- Witness for C4 at a concrete checker state. -/
theorem moved_vs_borrowed_variable_access_witness :
    check_expression tcExample (.Variable "m") = .error (.UseAfterMove "m") ∧
    check_expression tcExample (.Variable "b") = .ok (tcExample, .String) ∧
    check_expression tcExample (.Move (.Variable "b")) =
      .ok ({ tcExample with vars := set_variable_state tcExample.vars "b" .Moved }, .String) :=
  ⟨moved_vs_borrowed_variable_access.1 tcExample "m" .Bool (by decide),
   moved_vs_borrowed_variable_access.2.1 tcExample "b" .String (by decide),
   moved_vs_borrowed_variable_access.2.2 tcExample "b" .String (by decide)⟩

/-- C5. The implicit compatibility relation accepts exactly identity plus
the four widenings I32 to F32, I32 to F64, F32 to F64, I32 to I64, and at
typed target positions (call arguments, variable initializers, returns) an
incompatible pair is rejected with a type error. -/
theorem types_are_compatible_characterization :
    (∀ expected actual : Ty,
        types_are_compatible expected actual = true ↔
          (expected = actual ∨
            (expected = .F32 ∧ actual = .I32) ∨
            (expected = .F64 ∧ actual = .I32) ∨
            (expected = .F64 ∧ actual = .F32) ∨
            (expected = .I64 ∧ actual = .I32))) ∧
    (∀ (tc : TypeChecker) (f x : String) (p r a : Ty),
        alookup tc.functions f = some ⟨r, [p]⟩ →
        alookup tc.vars x = some ⟨a, .Available⟩ →
        check_expression tc (.FunctionCall f [.Variable x]) =
          (if types_are_compatible p a then .ok (tc, r)
           else .error (.TypeMismatch p a))) ∧
    (∀ (tc : TypeChecker) (n x : String) (vt a : Ty) (m : Bool),
        alookup tc.vars n = none →
        alookup tc.vars x = some ⟨a, .Available⟩ →
        check_statement tc (.VariableDeclaration n vt (.Variable x) m) =
          (if types_are_compatible vt a then
            .ok { tc with vars := ainsert tc.vars n ⟨vt, .Available⟩ }
           else .error (.TypeMismatch vt a))) ∧
    (∀ (tc : TypeChecker) (x : String) (rt a : Ty),
        tc.current_function_return = some rt →
        alookup tc.vars x = some ⟨a, .Available⟩ →
        check_statement tc (.Return (.Variable x)) =
          (if types_are_compatible rt a then .ok tc
           else .error (.InvalidReturnType rt a))) := by
  refine ⟨?_, ?_, ?_, ?_⟩
  · intro expected actual
    cases expected <;> cases actual <;> simp [types_are_compatible]
  · intro tc f x p r a hf hx
    by_cases hc : types_are_compatible p a <;>
      simp [check_expression, check_call_args, hf, hx, hc, except_ok_bind, except_error_bind]
  · intro tc n x vt a m hn hx
    by_cases hc : types_are_compatible vt a <;>
      simp [check_statement, check_expression, hn, hx, hc, except_ok_bind]
  · intro tc x rt a hr hx
    by_cases hc : types_are_compatible rt a <;>
      simp [check_statement, check_expression, hr, hx, hc, except_ok_bind]

/-- Witness for C5: the widening F32 expected, I32 actual is accepted at a
concrete call site. -/
theorem types_are_compatible_characterization_witness :
    check_expression tcExample (.FunctionCall "f" [.Variable "x"]) = .ok (tcExample, .Void) := by
  have h := types_are_compatible_characterization.2.1 tcExample "f" "x" .F32 .Void .I32
    (by decide) (by decide)
  have hc : types_are_compatible .F32 .I32 = true := by decide
  rw [hc] at h
  simpa using h

/-- The fixed explicit-cast table of the claim: I32 and F32 interchange,
I32 and I64 interchange, F32 and F64 interchange, plus any type to
itself. -/
def cast_table_allows (source target : Ty) : Bool :=
  match source, target with
  | .I32, .F32 | .F32, .I32 | .I32, .I64 | .I64, .I32 | .F32, .F64 | .F64, .F32 => true
  | s, t => s = t

/-- C6. An explicit `as` cast type-checks exactly when the source/target
pair is in the fixed table (I32 and F32, I32 and I64, F32 and F64, or
identity); every other pair fails with a `TypeMismatch` — in particular the
cast I32 to F64 is rejected even though implicit widening accepts actual
I32 where F64 is expected. -/
theorem explicit_cast_table :
    (∀ (tc : TypeChecker) (x : String) (s t : Ty),
        alookup tc.vars x = some ⟨s, .Available⟩ →
        check_expression tc (.TypeCast (.Variable x) t) =
          (if cast_table_allows s t then .ok (tc, t)
           else .error (.TypeMismatch t s))) ∧
    types_are_compatible .F64 .I32 = true ∧
    (∀ (tc : TypeChecker) (x : String),
        alookup tc.vars x = some ⟨.I32, .Available⟩ →
        check_expression tc (.TypeCast (.Variable x) .F64) =
          .error (.TypeMismatch .F64 .I32)) := by
  refine ⟨?_, by decide, ?_⟩
  · intro tc x s t hx
    cases s <;> cases t <;> simp [check_expression, hx, cast_table_allows, except_ok_bind]
  · intro tc x hx
    simp [check_expression, hx, except_ok_bind]

/-- Witness for C6 at a concrete checker state. -/
theorem explicit_cast_table_witness :
    check_expression tcExample (.TypeCast (.Variable "x") .F64) =
      .error (.TypeMismatch .F64 .I32) :=
  explicit_cast_table.2.2 tcExample "x" (by decide)

/-! ## Interpreter (`interpreter.rs`) -/

/-- `interpreter.rs` `RuntimeValue` (struct fields as an association list). -/
inductive RuntimeValue where
  | Integer (value : Int)
  | Float (value : F32)
  | Boolean (value : Bool)
  | String (value : String)
  | Struct (name : String) (fields : List (String × RuntimeValue))
  | Void

/-- Abstract model of the external `GraphicsEngine` capability:
`updates` is the predetermined sequence of results of `update()` (window
still open?), `keys` the codes of the currently pressed keys. The pixel
buffer and drawing primitives are outside the verified scope and are
modelled as no-ops. -/
structure GraphicsEngine where
  updates : List Bool
  keys : List Int

/-- `engine.update()`: consume the next predetermined poll result
(an exhausted model stream reports the window as still open). -/
def engine_update (e : GraphicsEngine) : Bool × GraphicsEngine :=
  match e.updates with
  | [] => (true, e)
  | b :: rest => (b, { e with updates := rest })

/-- `interpreter.rs` `Interpreter` state. The source field `variables` is
named `vars` (`variables` is a reserved command name in Lean);
`elapsed_time` models the `start_time.elapsed()` reading used by the
`get_time` builtin. -/
structure Interpreter where
  vars : List (String × RuntimeValue)
  functions : List (String × Function)
  graphics_engine : Option GraphicsEngine
  should_exit : Bool
  elapsed_time : F32

/-- `Interpreter::is_truthy` (`interpreter.rs`, lines 611-618). -/
def is_truthy : RuntimeValue → Bool
  | .Boolean b => b
  | .Integer i => i ≠ 0
  | .Float f => f ≠ f32zero
  | _ => false

/-- `Interpreter::is_builtin_function` (`interpreter.rs`, lines 349-357). -/
def is_builtin_function (name : String) : Bool :=
  name = "print_i32" || name = "print_string" || name = "print" ||
  name = "gpio_set" || name = "gpio_toggle" || name = "delay" ||
  name = "init_graphics" || name = "clear_screen" || name = "draw_pixel" ||
  name = "draw_rect" || name = "draw_circle" || name = "draw_line" ||
  name = "render" || name = "get_time" || name = "sleep" || name = "is_key_pressed"

/-- `Interpreter::evaluate_binary_operation` (`interpreter.rs`,
lines 488-609): dispatch on the concrete runtime types with the two mixed
integer/float orderings promoted to float. -/
def evaluate_binary_operation (left : RuntimeValue) (operator : BinaryOperator)
    (right : RuntimeValue) : Except String RuntimeValue :=
  match left, operator, right with
  | .Integer l, op, .Integer r =>
      match op with
      | .Add => .ok (.Integer (i32add l r))
      | .Subtract => .ok (.Integer (i32sub l r))
      | .Multiply => .ok (.Integer (i32mul l r))
      | .Divide =>
          if r = 0 then .error "Division by zero" else .ok (.Integer (i32div l r))
      | .Eq => .ok (.Boolean (l = r))
      | .Neq => .ok (.Boolean (l ≠ r))
      | .Lt => .ok (.Boolean (l < r))
      | .Gt => .ok (.Boolean (l > r))
      | .Lte => .ok (.Boolean (l ≤ r))
      | .Gte => .ok (.Boolean (l ≥ r))
      | .And | .Or => .error "Logical operations not supported for integers"
  | .Float l, op, .Float r =>
      match op with
      | .Add => .ok (.Float (f32add l r))
      | .Subtract => .ok (.Float (f32sub l r))
      | .Multiply => .ok (.Float (f32mul l r))
      | .Divide =>
          if r = f32zero then .error "Division by zero" else .ok (.Float (f32div l r))
      | .Eq => .ok (.Boolean (l = r))
      | .Neq => .ok (.Boolean (l ≠ r))
      | .Lt => .ok (.Boolean (f32lt l r))
      | .Gt => .ok (.Boolean (f32lt r l))
      | .Lte => .ok (.Boolean (f32le l r))
      | .Gte => .ok (.Boolean (f32le r l))
      | .And | .Or => .error "Logical operations not supported for floats"
  | .Boolean l, op, .Boolean r =>
      match op with
      | .And => .ok (.Boolean (l && r))
      | .Or => .ok (.Boolean (l || r))
      | .Eq => .ok (.Boolean (l = r))
      | .Neq => .ok (.Boolean (l ≠ r))
      | _ => .error "Unsupported operation for booleans"
  | .Integer l, op, .Float r =>
      match op with
      | .Add => .ok (.Float (f32add (intToF32 l) r))
      | .Subtract => .ok (.Float (f32sub (intToF32 l) r))
      | .Multiply => .ok (.Float (f32mul (intToF32 l) r))
      | .Divide =>
          if r = f32zero then .error "Division by zero"
          else .ok (.Float (f32div (intToF32 l) r))
      | .Eq => .ok (.Boolean (intToF32 l = r))
      | .Neq => .ok (.Boolean (intToF32 l ≠ r))
      | .Lt => .ok (.Boolean (f32lt (intToF32 l) r))
      | .Gt => .ok (.Boolean (f32lt r (intToF32 l)))
      | .Lte => .ok (.Boolean (f32le (intToF32 l) r))
      | .Gte => .ok (.Boolean (f32le r (intToF32 l)))
      | .And | .Or => .error "Logical operations not supported for mixed types"
  | .Float l, op, .Integer r =>
      match op with
      | .Add => .ok (.Float (f32add l (intToF32 r)))
      | .Subtract => .ok (.Float (f32sub l (intToF32 r)))
      | .Multiply => .ok (.Float (f32mul l (intToF32 r)))
      | .Divide =>
          if intToF32 r = f32zero then .error "Division by zero"
          else .ok (.Float (f32div l (intToF32 r)))
      | .Eq => .ok (.Boolean (l = intToF32 r))
      | .Neq => .ok (.Boolean (l ≠ intToF32 r))
      | .Lt => .ok (.Boolean (f32lt l (intToF32 r)))
      | .Gt => .ok (.Boolean (f32lt (intToF32 r) l))
      | .Lte => .ok (.Boolean (f32le l (intToF32 r)))
      | .Gte => .ok (.Boolean (f32le (intToF32 r) l))
      | .And | .Or => .error "Logical operations not supported for mixed types"
  | _, _, _ => .error "Type mismatch in binary operation"

/-- The value computed by `Interpreter::call_builtin_function`
(`interpreter.rs`, lines 359-486). Printing, GPIO, real-time sleeping and
pixel-buffer drawing have no observable effect inside the model; an
out-of-bounds `args[i]` access is a Rust panic, modelled as an error. -/
def builtin_call_value (s : Interpreter) (name : String) (args : List RuntimeValue) :
    Except String RuntimeValue :=
  match name with
  | "print_i32" | "print" | "print_string" =>
      match args with
      | [] => .error "panic: index out of bounds"
      | _ :: _ => .ok .Void
  | "gpio_set" | "gpio_toggle" => .ok .Void
  | "delay" | "sleep" =>
      match args with
      | [] => .error "panic: index out of bounds"
      | _ :: _ => .ok .Void
  | "init_graphics" => .ok .Void
  | "clear_screen" =>
      if args.length < 3 then .error "panic: index out of bounds" else .ok .Void
  | "draw_pixel" =>
      if args.length < 5 then .error "panic: index out of bounds" else .ok .Void
  | "draw_rect" =>
      if args.length < 7 then .error "panic: index out of bounds" else .ok .Void
  | "draw_circle" =>
      if args.length < 6 then .error "panic: index out of bounds" else .ok .Void
  | "draw_line" =>
      if args.length < 7 then .error "panic: index out of bounds" else .ok .Void
  | "render" => .ok .Void
  | "get_time" => .ok (.Float s.elapsed_time)
  | "is_key_pressed" =>
      match args with
      | [] => .error "panic: index out of bounds"
      | .Integer key_code :: _ =>
          match s.graphics_engine with
          | some engine =>
              if key_code = 87 ∨ key_code = 83 ∨ key_code = 65 ∨ key_code = 68 ∨
                 key_code = 37 ∨ key_code = 38 ∨ key_code = 39 ∨ key_code = 40 ∨
                 key_code = 32 then
                .ok (.Boolean (engine.keys.contains key_code))
              else .ok (.Boolean false)
          | none => .ok (.Boolean false)
      | _ :: _ => .ok (.Boolean false)
  | _ => .error ("Unknown builtin function: " ++ name)

/-- `Interpreter::call_builtin_function`: builtins mutate only the pixel
buffer (outside the model), so the interpreter state is returned
unchanged. -/
def call_builtin_function (s : Interpreter) (name : String) (args : List RuntimeValue) :
    Except String (Interpreter × RuntimeValue) :=
  (builtin_call_value s name args).map (fun v => (s, v))

/-- The parameter-binding loop of `Interpreter::interpret_function`
(`interpreter.rs`, lines 128-132): parameters beyond the supplied
arguments are left unbound (`if i < args.len()`). -/
def bind_params (params : List Parameter) (args : List RuntimeValue) :
    List (String × RuntimeValue) :=
  (params.zip args).foldl (fun m pa => ainsert m pa.1.name pa.2) []

mutual

/-- `Interpreter::interpret_expression` (`interpreter.rs`, lines 271-347). -/
def interpret_expression : Nat → Interpreter → Expression →
    Except String (Interpreter × RuntimeValue)
  | 0, _, _ => .error "model: out of fuel"
  | fuel+1, s, e =>
    match e with
    | .IntegerLiteral value => .ok (s, .Integer value)
    | .FloatLiteral value => .ok (s, .Float value)
    | .StringLiteral value => .ok (s, .String value)
    | .BoolLiteral value => .ok (s, .Boolean value)
    | .Variable name =>
        match alookup s.vars name with
        | some v => .ok (s, v)
        | none => .error ("Undefined variable: " ++ name)
    | .BinaryExpression left operator right => do
        let (s1, left_val) ← interpret_expression fuel s left
        let (s2, right_val) ← interpret_expression fuel s1 right
        match evaluate_binary_operation left_val operator right_val with
        | .ok v => .ok (s2, v)
        | .error msg => .error msg
    | .FunctionCall name args => do
        let (s1, arg_values) ← interpret_call_args fuel s args
        if is_builtin_function name then
          call_builtin_function s1 name arg_values
        else
          match alookup s1.functions name with
          | some function => interpret_function fuel s1 function arg_values
          | none => .error ("Undefined function: " ++ name)
    | .StructInitialization struct_name fields => do
        let (s1, field_values) ← interpret_struct_fields fuel s fields []
        .ok (s1, .Struct struct_name field_values)
    | .FieldAccess expression field_name => do
        let (s1, struct_val) ← interpret_expression fuel s expression
        match struct_val with
        | .Struct _ flds =>
            match alookup flds field_name with
            | some v => .ok (s1, v)
            | none => .error ("Undefined field: " ++ field_name)
        | _ => .error "Field access on non-struct value"
    | .TypeCast expression target_type => do
        let (s1, value) ← interpret_expression fuel s expression
        match value, target_type with
        | .Integer i, .F32 => .ok (s1, .Float (intToF32 i))
        | .Float f, .I32 => .ok (s1, .Integer (f32ToInt f))
        | .Integer i, .I64 => .ok (s1, .Integer i)
        | .Integer i, .F64 => .ok (s1, .Float (intToF32 i))
        | v, _ => .ok (s1, v)
    | .Move expression => interpret_expression fuel s expression
    | .Borrow expression _ => interpret_expression fuel s expression
termination_by structural fuel => fuel

/-- The argument-evaluation loop of the `FunctionCall` case. -/
def interpret_call_args : Nat → Interpreter → List Expression →
    Except String (Interpreter × List RuntimeValue)
  | 0, _, _ => .error "model: out of fuel"
  | _+1, s, [] => .ok (s, [])
  | fuel+1, s, arg :: rest => do
      let (s1, v) ← interpret_expression fuel s arg
      let (s2, vs) ← interpret_call_args fuel s1 rest
      .ok (s2, v :: vs)
termination_by structural fuel => fuel

/-- The field-evaluation loop of the `StructInitialization` case
(`field_values.insert(...)` in iteration order). -/
def interpret_struct_fields : Nat → Interpreter → List (String × Expression) →
    List (String × RuntimeValue) → Except String (Interpreter × List (String × RuntimeValue))
  | 0, _, _, _ => .error "model: out of fuel"
  | _+1, s, [], acc => .ok (s, acc)
  | fuel+1, s, (field_name, field_expr) :: rest, acc => do
      let (s1, v) ← interpret_expression fuel s field_expr
      interpret_struct_fields fuel s1 rest (ainsert acc field_name v)
termination_by structural fuel => fuel

/-- `Interpreter::interpret_function` (`interpreter.rs`, lines 123-149):
swap in a fresh environment seeded with the parameter bindings, run the
body with the break-on-top-level-`Return` loop, then restore the caller's
environment. -/
def interpret_function : Nat → Interpreter → Function → List RuntimeValue →
    Except String (Interpreter × RuntimeValue)
  | 0, _, _, _ => .error "model: out of fuel"
  | fuel+1, s, function, args => do
      let old_variables := s.vars
      let (s2, result) ←
        interpret_function_body fuel { s with vars := bind_params function.params args }
          function.body
      .ok ({ s2 with vars := old_variables }, result)
termination_by structural fuel => fuel

/-- The body loop of `interpret_function`: `result` keeps the last
statement's value and the loop breaks after a statement that is
syntactically a top-level `Return`. -/
def interpret_function_body : Nat → Interpreter → List Statement →
    Except String (Interpreter × RuntimeValue)
  | 0, _, _ => .error "model: out of fuel"
  | _+1, s, [] => .ok (s, .Void)
  | fuel+1, s, statement :: rest => do
      let (s1, result) ← interpret_statement fuel s statement
      match statement with
      | .Return _ => .ok (s1, result)
      | _ =>
          match rest with
          | [] => .ok (s1, result)
          | _ :: _ => interpret_function_body fuel s1 rest
termination_by structural fuel => fuel

/-- `Interpreter::interpret_statement` (`interpreter.rs`, lines 151-269). -/
def interpret_statement : Nat → Interpreter → Statement →
    Except String (Interpreter × RuntimeValue)
  | 0, _, _ => .error "model: out of fuel"
  | fuel+1, s, st =>
    match st with
    | .VariableDeclaration name _ value _ => do
        let (s1, v) ← interpret_expression fuel s value
        .ok ({ s1 with vars := ainsert s1.vars name v }, .Void)
    | .Assignment name value => do
        let (s1, new_value) ← interpret_expression fuel s value
        match alookup s1.vars name with
        | some _ => .ok ({ s1 with vars := ainsert s1.vars name new_value }, .Void)
        | none => .error ("Undefined variable: " ++ name)
    | .Return value => do
        let (s1, result) ← interpret_expression fuel s value
        .ok (s1, result)
    | .Expression expr => do
        let (s1, _) ← interpret_expression fuel s expr
        .ok (s1, .Void)
    | .Block statements => do
        let old_variables := s.vars
        let (s1, result) ← interpret_statement_seq fuel s statements
        .ok ({ s1 with vars := old_variables }, result)
    | .While condition body =>
        interpret_while fuel s condition body
    | .If condition then_branch else_branch => do
        let (s1, condition_result) ← interpret_expression fuel s condition
        let old_variables := s1.vars
        let (s2, _) ←
          if is_truthy condition_result then
            interpret_statement_seq fuel s1 then_branch
          else
            match else_branch with
            | some eb => interpret_statement_seq fuel s1 eb
            | none => .ok (s1, .Void)
        .ok ({ s2 with vars := old_variables }, .Void)
termination_by structural fuel => fuel

/-- The `for stmt in ...` loop over a statement list: the state is
threaded, `result` keeps the last statement's value (a `Block` evaluates
to it). -/
def interpret_statement_seq : Nat → Interpreter → List Statement →
    Except String (Interpreter × RuntimeValue)
  | 0, _, _ => .error "model: out of fuel"
  | _+1, s, [] => .ok (s, .Void)
  | fuel+1, s, [st] => interpret_statement fuel s st
  | fuel+1, s, st :: rest => do
      let (s1, _) ← interpret_statement fuel s st
      interpret_statement_seq fuel s1 rest
termination_by structural fuel => fuel

/-- The `While` loop of `interpret_statement` (`interpreter.rs`,
lines 208-246): the source clones `old_variables` before the loop and
deliberately never restores it, so environment changes made by the body
persist after the loop; after each body run an active graphics engine is
polled once and may set the `should_exit` flag. -/
def interpret_while : Nat → Interpreter → Expression → List Statement →
    Except String (Interpreter × RuntimeValue)
  | 0, _, _, _ => .error "model: out of fuel"
  | fuel+1, s, condition, body => do
      let (s1, condition_result) ← interpret_expression fuel s condition
      if ¬ is_truthy condition_result then .ok (s1, .Void)
      else do
        let (s2, _) ← interpret_statement_seq fuel s1 body
        match s2.graphics_engine with
        | some engine =>
            let (continue_loop, engine2) := engine_update engine
            if ¬ continue_loop then
              .ok ({ s2 with graphics_engine := some engine2, should_exit := true }, .Void)
            else
              let s3 := { s2 with graphics_engine := some engine2 }
              if s3.should_exit then .ok (s3, .Void)
              else interpret_while fuel s3 condition body
        | none =>
            if s2.should_exit then .ok (s2, .Void)
            else interpret_while fuel s2 condition body
termination_by structural fuel => fuel

end

/-- A successful builtin call leaves the interpreter state unchanged. -/
theorem call_builtin_function_state (s : Interpreter) (name : String)
    (args : List RuntimeValue) (r : Interpreter × RuntimeValue)
    (h : call_builtin_function s name args = .ok r) : r.1 = s := by
  unfold call_builtin_function at h
  cases hb : builtin_call_value s name args <;> rw [hb] at h <;>
    simp [Except.map] at h
  rw [← h]

/-- A successful user-function call restores the caller's environment
(`interpreter.rs`, lines 125 and 146), whatever the body did. -/
theorem interpret_function_vars (fuel : Nat) (s : Interpreter) (f : Function)
    (args : List RuntimeValue) (r : Interpreter × RuntimeValue)
    (h : interpret_function fuel s f args = .ok r) : r.1.vars = s.vars := by
  match fuel with
  | 0 => simp [interpret_function] at h
  | n+1 =>
    simp only [interpret_function] at h
    cases hb : interpret_function_body n { s with vars := bind_params f.params args }
        f.body with
    | error e => rw [hb, except_error_bind] at h; cases h
    | ok p =>
        rw [hb, except_ok_bind] at h
        obtain ⟨s2, result⟩ := p
        simp at h
        rw [← h]

/-- Successful expression evaluation (and argument or field-list
evaluation) leaves the variable environment unchanged: every mutation made
inside a called function is undone by the environment restore of
`interpret_function`. -/
theorem expression_preserves_vars : ∀ fuel : Nat,
    (∀ (s : Interpreter) (e : Expression) (r : Interpreter × RuntimeValue),
        interpret_expression fuel s e = .ok r → r.1.vars = s.vars) ∧
    (∀ (s : Interpreter) (args : List Expression) (r : Interpreter × List RuntimeValue),
        interpret_call_args fuel s args = .ok r → r.1.vars = s.vars) ∧
    (∀ (s : Interpreter) (fields : List (String × Expression))
        (acc : List (String × RuntimeValue)) (r : Interpreter × List (String × RuntimeValue)),
        interpret_struct_fields fuel s fields acc = .ok r → r.1.vars = s.vars) := by
  intro fuel
  induction fuel with
  | zero =>
      refine ⟨?_, ?_, ?_⟩
      · intro s e r h; simp [interpret_expression] at h
      · intro s args r h; simp [interpret_call_args] at h
      · intro s fields acc r h; simp [interpret_struct_fields] at h
  | succ n ih =>
      obtain ⟨ihE, ihA, ihF⟩ := ih
      refine ⟨?_, ?_, ?_⟩
      · intro s e r h
        cases e with
        | IntegerLiteral v => simp [interpret_expression] at h; rw [← h]
        | FloatLiteral v => simp [interpret_expression] at h; rw [← h]
        | StringLiteral v => simp [interpret_expression] at h; rw [← h]
        | BoolLiteral v => simp [interpret_expression] at h; rw [← h]
        | Variable name =>
            simp only [interpret_expression] at h
            cases hv : alookup s.vars name <;> rw [hv] at h <;> simp at h
            rw [← h]
        | BinaryExpression left operator right =>
            simp only [interpret_expression] at h
            cases h1 : interpret_expression n s left with
            | error e1 => rw [h1, except_error_bind] at h; cases h
            | ok p =>
                rw [h1, except_ok_bind] at h
                obtain ⟨s1, lv⟩ := p
                cases h2 : interpret_expression n s1 right with
                | error e2 => rw [h2, except_error_bind] at h; cases h
                | ok q =>
                    rw [h2, except_ok_bind] at h
                    obtain ⟨s2, rv⟩ := q
                    have v1 := ihE s left (s1, lv) h1
                    have v2 := ihE s1 right (s2, rv) h2
                    cases h3 : evaluate_binary_operation lv operator rv <;>
                      rw [h3] at h <;> simp at h
                    rw [← h]; simp_all
        | FunctionCall name args =>
            simp only [interpret_expression] at h
            cases h1 : interpret_call_args n s args with
            | error e1 => rw [h1, except_error_bind] at h; cases h
            | ok p =>
                rw [h1, except_ok_bind] at h
                obtain ⟨s1, vals⟩ := p
                have v1 := ihA s args (s1, vals) h1
                by_cases hb : is_builtin_function name
                · rw [if_pos hb] at h
                  have := call_builtin_function_state s1 name vals r h
                  rw [this]; exact v1
                · rw [if_neg hb] at h
                  cases h2 : alookup s1.functions name <;> rw [h2] at h
                  · cases h
                  · have := interpret_function_vars n s1 _ vals r h
                    rw [this]; exact v1
        | StructInitialization sname fields =>
            simp only [interpret_expression] at h
            cases h1 : interpret_struct_fields n s fields [] with
            | error e1 => rw [h1, except_error_bind] at h; cases h
            | ok p =>
                rw [h1, except_ok_bind] at h
                obtain ⟨s1, fv⟩ := p
                simp at h
                have v1 := ihF s fields [] (s1, fv) h1
                rw [← h]; exact v1
        | FieldAccess expression field_name =>
            simp only [interpret_expression] at h
            cases h1 : interpret_expression n s expression with
            | error e1 => rw [h1, except_error_bind] at h; cases h
            | ok p =>
                rw [h1, except_ok_bind] at h
                obtain ⟨s1, sv⟩ := p
                have v1 := ihE s expression (s1, sv) h1
                split at h
                · rename_i sname flds heqv
                  cases h2 : alookup flds field_name <;> rw [h2] at h <;> simp at h
                  rw [← h]; exact v1
                · cases h
        | TypeCast expression target_type =>
            simp only [interpret_expression] at h
            cases h1 : interpret_expression n s expression with
            | error e1 => rw [h1, except_error_bind] at h; cases h
            | ok p =>
                rw [h1, except_ok_bind] at h
                obtain ⟨s1, v⟩ := p
                have v1 := ihE s expression (s1, v) h1
                split at h <;> simp at h <;> (rw [← h]; exact v1)
        | Move expression =>
            simp only [interpret_expression] at h
            exact ihE s expression r h
        | Borrow expression mutable =>
            simp only [interpret_expression] at h
            exact ihE s expression r h
      · intro s args r h
        cases args with
        | nil => simp [interpret_call_args] at h; rw [← h]
        | cons arg rest =>
            simp only [interpret_call_args] at h
            cases h1 : interpret_expression n s arg with
            | error e1 => rw [h1, except_error_bind] at h; cases h
            | ok p =>
                rw [h1, except_ok_bind] at h
                obtain ⟨s1, v⟩ := p
                cases h2 : interpret_call_args n s1 rest with
                | error e2 => rw [h2, except_error_bind] at h; cases h
                | ok q =>
                    rw [h2, except_ok_bind] at h
                    obtain ⟨s2, vs⟩ := q
                    simp at h
                    have v1 := ihE s arg (s1, v) h1
                    have v2 := ihA s1 rest (s2, vs) h2
                    rw [← h]; simp_all
      · intro s fields acc r h
        cases fields with
        | nil => simp [interpret_struct_fields] at h; rw [← h]
        | cons fd rest =>
            obtain ⟨fname, fexpr⟩ := fd
            simp only [interpret_struct_fields] at h
            cases h1 : interpret_expression n s fexpr with
            | error e1 => rw [h1, except_error_bind] at h; cases h
            | ok p =>
                rw [h1, except_ok_bind] at h
                obtain ⟨s1, v⟩ := p
                have v1 := ihE s fexpr (s1, v) h1
                have v2 := ihF s1 rest (ainsert acc fname v) r h
                rw [v2]; exact v1

/-- C2. After a successfully executed `if` statement the variable
environment equals the environment before it (declarations and
reassignments inside the taken branch are discarded), while a `while`
statement does not restore the environment: a declaration and a
reassignment performed in the loop body remain observable after the loop
exits. -/
theorem if_restores_while_persists :
    (∀ (fuel : Nat) (s : Interpreter) (condition : Expression)
        (then_branch : List Statement) (else_branch : Option (List Statement))
        (r : Interpreter × RuntimeValue),
        interpret_statement fuel s (.If condition then_branch else_branch) = .ok r →
        r.1.vars = s.vars) ∧
    (∀ (k : Int) (fns : List (String × Function)) (t : F32),
        interpret_statement 20
          ⟨[("x", .Integer 1)], fns, none, false, t⟩
          (.While (.BinaryExpression (.Variable "x") .Neq (.IntegerLiteral 0))
            [.VariableDeclaration "y" .I32 (.IntegerLiteral k) false,
             .Assignment "x" (.IntegerLiteral 0)]) =
          .ok (⟨[("x", .Integer 0), ("y", .Integer k)], fns, none, false, t⟩, .Void)) := by
  constructor
  · intro fuel s condition then_branch else_branch r h
    match fuel with
    | 0 => simp [interpret_statement] at h
    | n+1 =>
      simp only [interpret_statement] at h
      cases h1 : interpret_expression n s condition with
      | error e1 => rw [h1, except_error_bind] at h; cases h
      | ok p =>
          rw [h1, except_ok_bind] at h
          obtain ⟨s1, cv⟩ := p
          have v1 := (expression_preserves_vars n).1 s condition (s1, cv) h1
          cases else_branch with
          | none =>
              split at h
              · cases h2 : interpret_statement_seq n s1 then_branch with
                | error e2 => rw [h2, except_error_bind] at h; cases h
                | ok q =>
                    rw [h2, except_ok_bind] at h
                    obtain ⟨s2, w⟩ := q
                    simp at h
                    rw [← h]; exact v1
              · simp [except_ok_bind] at h
                rw [← h]; exact v1
          | some eb =>
              split at h
              · cases h2 : interpret_statement_seq n s1 then_branch with
                | error e2 => rw [h2, except_error_bind] at h; cases h
                | ok q =>
                    rw [h2, except_ok_bind] at h
                    obtain ⟨s2, w⟩ := q
                    simp at h
                    rw [← h]; exact v1
              · simp only [] at h
                cases h2 : interpret_statement_seq n s1 eb with
                | error e2 => rw [h2, except_error_bind] at h; cases h
                | ok q =>
                    rw [h2, except_ok_bind] at h
                    obtain ⟨s2, w⟩ := q
                    simp at h
                    rw [← h]; exact v1
  · intro k fns t
    rfl

/-- Concrete interpreter state used by the interpreter witnesses. -/
def st0 : Interpreter := ⟨[("a", .Integer 3)], [], none, false, f32zero⟩

/-- Witness for C2: a concrete `if` whose branch declares a variable leaves
the environment unchanged, and the concrete `while` loop of the second
conjunct leaves its body's declaration and reassignment observable. -/
theorem if_restores_while_persists_witness :
    ([("a", RuntimeValue.Integer 3)] : List (String × RuntimeValue)) = st0.vars ∧
    interpret_statement 20 ⟨[("x", .Integer 1)], [], none, false, f32zero⟩
      (.While (.BinaryExpression (.Variable "x") .Neq (.IntegerLiteral 0))
        [.VariableDeclaration "y" .I32 (.IntegerLiteral 7) false,
         .Assignment "x" (.IntegerLiteral 0)]) =
      .ok (⟨[("x", .Integer 0), ("y", .Integer 7)], [], none, false, f32zero⟩, .Void) :=
  ⟨if_restores_while_persists.1 10 st0 (.BoolLiteral true)
      [.VariableDeclaration "z" .I32 (.IntegerLiteral 1) false] none (st0, .Void) rfl,
   if_restores_while_persists.2 7 [] f32zero⟩

/-- A successfully executed `while` statement always evaluates to `Void`
(`interpreter.rs`, line 245). -/
theorem interpret_while_void : ∀ (fuel : Nat) (s : Interpreter) (c : Expression)
    (b : List Statement) (r : Interpreter × RuntimeValue),
    interpret_while fuel s c b = .ok r → r.2 = .Void := by
  intro fuel
  induction fuel with
  | zero => intro s c b r h; simp [interpret_while] at h
  | succ n ih =>
      intro s c b r h
      simp only [interpret_while] at h
      cases h1 : interpret_expression n s c with
      | error e => rw [h1, except_error_bind] at h; cases h
      | ok p =>
          rw [h1, except_ok_bind] at h
          obtain ⟨s1, cv⟩ := p
          split at h
          · simp at h; rw [← h]
          · cases h2 : interpret_statement_seq n s1 b with
            | error e => rw [h2, except_error_bind] at h; cases h
            | ok q =>
                rw [h2, except_ok_bind] at h
                obtain ⟨s2, w⟩ := q
                split at h
                · split at h
                  · simp at h; rw [← h]
                  · split at h
                    · simp at h; rw [← h]
                    · exact ih _ _ _ _ h
                · split at h
                  · simp at h; rw [← h]
                  · exact ih _ _ _ _ h

/-- C9 counterexample: a `Return` nested as the last statement of a block
makes the enclosing `Block` statement evaluate to the returned value
(`Integer 5`), not to `Void` as the claim states. -/
theorem nested_return_block_counterexample :
    interpret_statement 10 ⟨[], [], none, false, f32zero⟩
      (.Block [.Return (.IntegerLiteral 5)]) =
      .ok (⟨[], [], none, false, f32zero⟩, .Integer 5) ∧
    RuntimeValue.Integer 5 ≠ RuntimeValue.Void :=
  ⟨rfl, fun h => nomatch h⟩

/-- C9 (amended). A nested `Return` does not stop the enclosing function:
`if` and `while` statements always evaluate to `Void` (discarding a
`Return` executed inside them), the body loop stops only at a syntactically
top-level `Return` and continues past any other statement, and a `Block`
evaluates to its last statement's value, so a trailing nested `Return`
propagates its value as the block's value. -/
theorem nested_return_semantics :
    (∀ (fuel : Nat) (s : Interpreter) (c : Expression) (tb : List Statement)
        (eb : Option (List Statement)) (r : Interpreter × RuntimeValue),
        interpret_statement fuel s (.If c tb eb) = .ok r → r.2 = .Void) ∧
    (∀ (fuel : Nat) (s : Interpreter) (c : Expression) (b : List Statement)
        (r : Interpreter × RuntimeValue),
        interpret_statement fuel s (.While c b) = .ok r → r.2 = .Void) ∧
    (∀ (fuel : Nat) (s : Interpreter) (e : Expression) (rest : List Statement),
        interpret_function_body (fuel+1) s (.Return e :: rest) =
          interpret_statement fuel s (.Return e)) ∧
    (∀ (fuel : Nat) (s : Interpreter) (st : Statement) (rest : List Statement),
        (∀ e, st ≠ .Return e) → rest ≠ [] →
        interpret_function_body (fuel+1) s (st :: rest) =
          (do
            let (s1, _) ← interpret_statement fuel s st
            interpret_function_body fuel s1 rest)) ∧
    (∀ (fuel : Nat) (s : Interpreter) (e : Expression),
        interpret_statement (fuel+3) s (.Block [.Return e]) =
          (interpret_expression fuel s e).map
            (fun p => ({ p.1 with vars := s.vars }, p.2))) := by
  refine ⟨?_, ?_, ?_, ?_, ?_⟩
  · intro fuel s c tb eb r h
    match fuel with
    | 0 => simp [interpret_statement] at h
    | n+1 =>
      simp only [interpret_statement] at h
      cases h1 : interpret_expression n s c with
      | error e1 => rw [h1, except_error_bind] at h; cases h
      | ok p =>
          rw [h1, except_ok_bind] at h
          obtain ⟨s1, cv⟩ := p
          cases eb with
          | none =>
              split at h
              · cases h2 : interpret_statement_seq n s1 tb with
                | error e2 => rw [h2, except_error_bind] at h; cases h
                | ok q =>
                    rw [h2, except_ok_bind] at h
                    obtain ⟨s2, w⟩ := q
                    simp at h; rw [← h]
              · simp [except_ok_bind] at h; rw [← h]
          | some eb2 =>
              split at h
              · cases h2 : interpret_statement_seq n s1 tb with
                | error e2 => rw [h2, except_error_bind] at h; cases h
                | ok q =>
                    rw [h2, except_ok_bind] at h
                    obtain ⟨s2, w⟩ := q
                    simp at h; rw [← h]
              · simp only [] at h
                cases h2 : interpret_statement_seq n s1 eb2 with
                | error e2 => rw [h2, except_error_bind] at h; cases h
                | ok q =>
                    rw [h2, except_ok_bind] at h
                    obtain ⟨s2, w⟩ := q
                    simp at h; rw [← h]
  · intro fuel s c b r h
    match fuel with
    | 0 => simp [interpret_statement] at h
    | n+1 =>
      simp only [interpret_statement] at h
      exact interpret_while_void n s c b r h
  · intro fuel s e rest
    cases h : interpret_statement fuel s (.Return e) with
    | error m => simp [interpret_function_body, h, except_error_bind]
    | ok p =>
        obtain ⟨s1, v⟩ := p
        simp [interpret_function_body, h, except_ok_bind]
  · intro fuel s st rest hne hrest
    cases rest with
    | nil => exact absurd rfl hrest
    | cons r2 rs =>
        cases h : interpret_statement fuel s st with
        | error m => simp [interpret_function_body, h, except_error_bind]
        | ok p =>
            obtain ⟨s1, v⟩ := p
            cases st
            case Return e2 => exact absurd rfl (hne e2)
            all_goals simp [interpret_function_body, h, except_ok_bind]
  · intro fuel s e
    cases h : interpret_expression fuel s e with
    | error m =>
        simp [interpret_statement, interpret_statement_seq, h,
          except_error_bind, Except.map]
    | ok p =>
        obtain ⟨s1, v⟩ := p
        simp [interpret_statement, interpret_statement_seq, h,
          except_ok_bind, Except.map]

/-- Witness for C9: the body loop continues past a non-`Return` statement,
and a concrete `if` containing no return evaluates to `Void`. -/
theorem nested_return_semantics_witness :
    interpret_function_body 6 st0
        [.Expression (.IntegerLiteral 1), .Return (.IntegerLiteral 2)] =
      (do
        let (s1, _) ← interpret_statement 5 st0 (.Expression (.IntegerLiteral 1))
        interpret_function_body 5 s1 [.Return (.IntegerLiteral 2)]) ∧
    RuntimeValue.Void = RuntimeValue.Void :=
  ⟨nested_return_semantics.2.2.2.1 5 st0 (.Expression (.IntegerLiteral 1))
      [.Return (.IntegerLiteral 2)] (fun _ h => nomatch h) (fun h => nomatch h),
   nested_return_semantics.1 5 st0 (.BoolLiteral true) [] none (st0, .Void) rfl⟩

/-! ## Graphics pre-scan and program execution (`interpreter.rs`) -/

/-- The fixed list of graphics-related builtin names scanned for by
`Interpreter::has_graphics_functions` (`interpreter.rs`, lines 63-66). -/
def graphics_function_names : List String :=
  ["init_graphics", "clear_screen", "draw_pixel", "draw_rect",
   "draw_circle", "draw_line", "render", "get_time", "sleep"]

/-- `Interpreter::expression_contains_graphics` (`interpreter.rs`,
lines 110-121): only the name at the head of a function call and the two
operands of a binary expression are inspected. -/
def expression_contains_graphics : Expression → Bool
  | .FunctionCall name _ => graphics_function_names.contains name
  | .BinaryExpression left _ right =>
      expression_contains_graphics left || expression_contains_graphics right
  | _ => false

mutual

/-- The per-statement dispatch of `Interpreter::contains_graphics_calls`
(`interpreter.rs`, lines 76-108): only expression statements, blocks,
`if` branches and `while` bodies are scanned. -/
def statement_contains_graphics : Statement → Bool
  | .Expression expr => expression_contains_graphics expr
  | .Block statements => contains_graphics_calls statements
  | .If _ then_branch else_branch =>
      contains_graphics_calls then_branch ||
      (match else_branch with
       | some eb => contains_graphics_calls eb
       | none => false)
  | .While _ body => contains_graphics_calls body
  | _ => false

/-- `Interpreter::contains_graphics_calls`: the statement-list loop. -/
def contains_graphics_calls : List Statement → Bool
  | [] => false
  | statement :: rest =>
      statement_contains_graphics statement || contains_graphics_calls rest

end

/-- `Interpreter::has_graphics_functions` (`interpreter.rs`, lines 61-74). -/
def has_graphics_functions (program : Program) : Bool :=
  program.functions.any fun function => contains_graphics_calls function.body

/-- The function-registration loop of `interpret_program`
(`interpreter.rs`, lines 41-43). -/
def register_functions (fns : List (String × Function)) :
    List Function → List (String × Function)
  | [] => fns
  | f :: rest => register_functions (ainsert fns f.name f) rest

/-- `Interpreter::interpret_program` (`interpreter.rs`, lines 39-59):
register the declared functions, require `main`, construct the graphics
capability only if the pre-scan finds a graphics call, then run `main`
with no arguments. `fresh_engine` models `GraphicsEngine::new`. -/
def interpret_program (fuel : Nat) (s : Interpreter) (fresh_engine : GraphicsEngine)
    (program : Program) : Except String Interpreter :=
  let s1 := { s with functions := register_functions s.functions program.functions }
  match alookup s1.functions "main" with
  | none => .error "No main function found"
  | some main_function =>
      let s2 :=
        if has_graphics_functions program then
          { s1 with graphics_engine := some fresh_engine }
        else s1
      do
        let (s3, _) ← interpret_function fuel s2 main_function []
        .ok s3

set_option maxHeartbeats 1000000 in
/-- Successful execution never creates or destroys the graphics engine:
the presence of the capability is decided once by `interpret_program` and
is invariant afterwards (builtins and the per-iteration poll replace the
engine, never add or remove it). -/
theorem graphics_presence_preserved : ∀ fuel : Nat,
    (∀ (s : Interpreter) (e : Expression) (r : Interpreter × RuntimeValue),
        interpret_expression fuel s e = .ok r →
        r.1.graphics_engine.isSome = s.graphics_engine.isSome) ∧
    (∀ (s : Interpreter) (args : List Expression) (r : Interpreter × List RuntimeValue),
        interpret_call_args fuel s args = .ok r →
        r.1.graphics_engine.isSome = s.graphics_engine.isSome) ∧
    (∀ (s : Interpreter) (fields : List (String × Expression))
        (acc : List (String × RuntimeValue)) (r : Interpreter × List (String × RuntimeValue)),
        interpret_struct_fields fuel s fields acc = .ok r →
        r.1.graphics_engine.isSome = s.graphics_engine.isSome) ∧
    (∀ (s : Interpreter) (f : Function) (args : List RuntimeValue)
        (r : Interpreter × RuntimeValue),
        interpret_function fuel s f args = .ok r →
        r.1.graphics_engine.isSome = s.graphics_engine.isSome) ∧
    (∀ (s : Interpreter) (body : List Statement) (r : Interpreter × RuntimeValue),
        interpret_function_body fuel s body = .ok r →
        r.1.graphics_engine.isSome = s.graphics_engine.isSome) ∧
    (∀ (s : Interpreter) (st : Statement) (r : Interpreter × RuntimeValue),
        interpret_statement fuel s st = .ok r →
        r.1.graphics_engine.isSome = s.graphics_engine.isSome) ∧
    (∀ (s : Interpreter) (l : List Statement) (r : Interpreter × RuntimeValue),
        interpret_statement_seq fuel s l = .ok r →
        r.1.graphics_engine.isSome = s.graphics_engine.isSome) ∧
    (∀ (s : Interpreter) (c : Expression) (b : List Statement)
        (r : Interpreter × RuntimeValue),
        interpret_while fuel s c b = .ok r →
        r.1.graphics_engine.isSome = s.graphics_engine.isSome) := by
  intro fuel
  induction fuel with
  | zero =>
      refine ⟨?_, ?_, ?_, ?_, ?_, ?_, ?_, ?_⟩
      · intro s e r h; simp [interpret_expression] at h
      · intro s args r h; simp [interpret_call_args] at h
      · intro s fields acc r h; simp [interpret_struct_fields] at h
      · intro s f args r h; simp [interpret_function] at h
      · intro s body r h; simp [interpret_function_body] at h
      · intro s st r h; simp [interpret_statement] at h
      · intro s l r h; simp [interpret_statement_seq] at h
      · intro s c b r h; simp [interpret_while] at h
  | succ n ih =>
      obtain ⟨ihE, ihA, ihF, ihFn, ihB, ihS, ihQ, ihW⟩ := ih
      refine ⟨?_, ?_, ?_, ?_, ?_, ?_, ?_, ?_⟩
      · intro s e r h
        cases e with
        | IntegerLiteral v => simp [interpret_expression] at h; rw [← h]
        | FloatLiteral v => simp [interpret_expression] at h; rw [← h]
        | StringLiteral v => simp [interpret_expression] at h; rw [← h]
        | BoolLiteral v => simp [interpret_expression] at h; rw [← h]
        | Variable name =>
            simp only [interpret_expression] at h
            cases hv : alookup s.vars name <;> rw [hv] at h <;> simp at h
            rw [← h]
        | BinaryExpression left operator right =>
            simp only [interpret_expression] at h
            cases h1 : interpret_expression n s left with
            | error e1 => rw [h1, except_error_bind] at h; cases h
            | ok p =>
                rw [h1, except_ok_bind] at h
                obtain ⟨s1, lv⟩ := p
                cases h2 : interpret_expression n s1 right with
                | error e2 => rw [h2, except_error_bind] at h; cases h
                | ok q =>
                    rw [h2, except_ok_bind] at h
                    obtain ⟨s2, rv⟩ := q
                    have v1 := ihE s left (s1, lv) h1
                    have v2 := ihE s1 right (s2, rv) h2
                    cases h3 : evaluate_binary_operation lv operator rv <;>
                      rw [h3] at h <;> simp at h
                    rw [← h]; simp_all
        | FunctionCall name args =>
            simp only [interpret_expression] at h
            cases h1 : interpret_call_args n s args with
            | error e1 => rw [h1, except_error_bind] at h; cases h
            | ok p =>
                rw [h1, except_ok_bind] at h
                obtain ⟨s1, vals⟩ := p
                have v1 := ihA s args (s1, vals) h1
                by_cases hb : is_builtin_function name
                · rw [if_pos hb] at h
                  have := call_builtin_function_state s1 name vals r h
                  rw [this]; exact v1
                · rw [if_neg hb] at h
                  cases h2 : alookup s1.functions name <;> rw [h2] at h
                  · cases h
                  · have := ihFn s1 _ vals r h
                    rw [this]; exact v1
        | StructInitialization sname fields =>
            simp only [interpret_expression] at h
            cases h1 : interpret_struct_fields n s fields [] with
            | error e1 => rw [h1, except_error_bind] at h; cases h
            | ok p =>
                rw [h1, except_ok_bind] at h
                obtain ⟨s1, fv⟩ := p
                simp at h
                have v1 := ihF s fields [] (s1, fv) h1
                rw [← h]; exact v1
        | FieldAccess expression field_name =>
            simp only [interpret_expression] at h
            cases h1 : interpret_expression n s expression with
            | error e1 => rw [h1, except_error_bind] at h; cases h
            | ok p =>
                rw [h1, except_ok_bind] at h
                obtain ⟨s1, sv⟩ := p
                have v1 := ihE s expression (s1, sv) h1
                split at h
                · rename_i sname flds heqv
                  cases h2 : alookup flds field_name <;> rw [h2] at h <;> simp at h
                  rw [← h]; exact v1
                · cases h
        | TypeCast expression target_type =>
            simp only [interpret_expression] at h
            cases h1 : interpret_expression n s expression with
            | error e1 => rw [h1, except_error_bind] at h; cases h
            | ok p =>
                rw [h1, except_ok_bind] at h
                obtain ⟨s1, v⟩ := p
                have v1 := ihE s expression (s1, v) h1
                split at h <;> simp at h <;> (rw [← h]; exact v1)
        | Move expression =>
            simp only [interpret_expression] at h
            exact ihE s expression r h
        | Borrow expression mutable =>
            simp only [interpret_expression] at h
            exact ihE s expression r h
      · intro s args r h
        cases args with
        | nil => simp [interpret_call_args] at h; rw [← h]
        | cons arg rest =>
            simp only [interpret_call_args] at h
            cases h1 : interpret_expression n s arg with
            | error e1 => rw [h1, except_error_bind] at h; cases h
            | ok p =>
                rw [h1, except_ok_bind] at h
                obtain ⟨s1, v⟩ := p
                cases h2 : interpret_call_args n s1 rest with
                | error e2 => rw [h2, except_error_bind] at h; cases h
                | ok q =>
                    rw [h2, except_ok_bind] at h
                    obtain ⟨s2, vs⟩ := q
                    simp at h
                    have v1 := ihE s arg (s1, v) h1
                    have v2 := ihA s1 rest (s2, vs) h2
                    rw [← h]; simp_all
      · intro s fields acc r h
        cases fields with
        | nil => simp [interpret_struct_fields] at h; rw [← h]
        | cons fd rest =>
            obtain ⟨fname, fexpr⟩ := fd
            simp only [interpret_struct_fields] at h
            cases h1 : interpret_expression n s fexpr with
            | error e1 => rw [h1, except_error_bind] at h; cases h
            | ok p =>
                rw [h1, except_ok_bind] at h
                obtain ⟨s1, v⟩ := p
                have v1 := ihE s fexpr (s1, v) h1
                have v2 := ihF s1 rest (ainsert acc fname v) r h
                rw [v2]; exact v1
      · intro s f args r h
        simp only [interpret_function] at h
        cases hb : interpret_function_body n { s with vars := bind_params f.params args }
            f.body with
        | error e => rw [hb, except_error_bind] at h; cases h
        | ok p =>
            rw [hb, except_ok_bind] at h
            obtain ⟨s2, result⟩ := p
            simp at h
            have v1 := ihB { s with vars := bind_params f.params args } f.body (s2, result) hb
            rw [← h]; exact v1
      · intro s body r h
        cases body with
        | nil => simp [interpret_function_body] at h; rw [← h]
        | cons st rest =>
            simp only [interpret_function_body] at h
            cases h1 : interpret_statement n s st with
            | error e1 => rw [h1, except_error_bind] at h; cases h
            | ok p =>
                rw [h1, except_ok_bind] at h
                obtain ⟨s1, v⟩ := p
                have v1 := ihS s st (s1, v) h1
                split at h
                · simp at h; rw [← h]; exact v1
                · split at h
                  · simp at h; rw [← h]; exact v1
                  · have v2 := ihB s1 _ r h
                    rw [v2]; exact v1
      · intro s st r h
        cases st with
        | VariableDeclaration name ty value m =>
            simp only [interpret_statement] at h
            cases h1 : interpret_expression n s value with
            | error e1 => rw [h1, except_error_bind] at h; cases h
            | ok p =>
                rw [h1, except_ok_bind] at h
                obtain ⟨s1, v⟩ := p
                simp at h
                rw [← h]; exact ihE s value (s1, v) h1
        | Assignment name value =>
            simp only [interpret_statement] at h
            cases h1 : interpret_expression n s value with
            | error e1 => rw [h1, except_error_bind] at h; cases h
            | ok p =>
                rw [h1, except_ok_bind] at h
                obtain ⟨s1, v⟩ := p
                cases h2 : alookup s1.vars name <;> rw [h2] at h <;> simp at h
                rw [← h]; exact ihE s value (s1, v) h1
        | Return value =>
            simp only [interpret_statement] at h
            cases h1 : interpret_expression n s value with
            | error e1 => rw [h1, except_error_bind] at h; cases h
            | ok p =>
                rw [h1, except_ok_bind] at h
                obtain ⟨s1, v⟩ := p
                simp at h
                rw [← h]; exact ihE s value (s1, v) h1
        | Expression expr =>
            simp only [interpret_statement] at h
            cases h1 : interpret_expression n s expr with
            | error e1 => rw [h1, except_error_bind] at h; cases h
            | ok p =>
                rw [h1, except_ok_bind] at h
                obtain ⟨s1, v⟩ := p
                simp at h
                rw [← h]; exact ihE s expr (s1, v) h1
        | Block statements =>
            simp only [interpret_statement] at h
            cases h1 : interpret_statement_seq n s statements with
            | error e1 => rw [h1, except_error_bind] at h; cases h
            | ok p =>
                rw [h1, except_ok_bind] at h
                obtain ⟨s1, v⟩ := p
                simp at h
                rw [← h]; exact ihQ s statements (s1, v) h1
        | While c b =>
            simp only [interpret_statement] at h
            exact ihW s c b r h
        | If c tb eb =>
            simp only [interpret_statement] at h
            cases h1 : interpret_expression n s c with
            | error e1 => rw [h1, except_error_bind] at h; cases h
            | ok p =>
                rw [h1, except_ok_bind] at h
                obtain ⟨s1, cv⟩ := p
                have v1 := ihE s c (s1, cv) h1
                cases eb with
                | none =>
                    split at h
                    · cases h2 : interpret_statement_seq n s1 tb with
                      | error e2 => rw [h2, except_error_bind] at h; cases h
                      | ok q =>
                          rw [h2, except_ok_bind] at h
                          obtain ⟨s2, w⟩ := q
                          simp at h
                          have v2 := ihQ s1 tb (s2, w) h2
                          rw [← h]; simp_all
                    · simp [except_ok_bind] at h
                      rw [← h]; exact v1
                | some eb2 =>
                    split at h
                    · cases h2 : interpret_statement_seq n s1 tb with
                      | error e2 => rw [h2, except_error_bind] at h; cases h
                      | ok q =>
                          rw [h2, except_ok_bind] at h
                          obtain ⟨s2, w⟩ := q
                          simp at h
                          have v2 := ihQ s1 tb (s2, w) h2
                          rw [← h]; simp_all
                    · simp only [] at h
                      cases h2 : interpret_statement_seq n s1 eb2 with
                      | error e2 => rw [h2, except_error_bind] at h; cases h
                      | ok q =>
                          rw [h2, except_ok_bind] at h
                          obtain ⟨s2, w⟩ := q
                          simp at h
                          have v2 := ihQ s1 eb2 (s2, w) h2
                          rw [← h]; simp_all
      · intro s l r h
        cases l with
        | nil => simp [interpret_statement_seq] at h; rw [← h]
        | cons st rest =>
            cases rest with
            | nil =>
                simp only [interpret_statement_seq] at h
                exact ihS s st r h
            | cons b2 bs =>
                simp only [interpret_statement_seq] at h
                cases h1 : interpret_statement n s st with
                | error e1 => rw [h1, except_error_bind] at h; cases h
                | ok p =>
                    rw [h1, except_ok_bind] at h
                    obtain ⟨s1, v⟩ := p
                    have v1 := ihS s st (s1, v) h1
                    have v2 := ihQ s1 (b2 :: bs) r h
                    rw [v2]; exact v1
      · intro s c b r h
        simp only [interpret_while] at h
        cases h1 : interpret_expression n s c with
        | error e1 => rw [h1, except_error_bind] at h; cases h
        | ok p =>
            rw [h1, except_ok_bind] at h
            obtain ⟨s1, cv⟩ := p
            have v1 := ihE s c (s1, cv) h1
            split at h
            · simp at h; rw [← h]; exact v1
            · cases h2 : interpret_statement_seq n s1 b with
              | error e2 => rw [h2, except_error_bind] at h; cases h
              | ok q =>
                  rw [h2, except_ok_bind] at h
                  obtain ⟨s2, w⟩ := q
                  have v2 := ihQ s1 b (s2, w) h2
                  split at h
                  · rename_i engine heq
                    split at h
                    · simp at h; rw [← h]; simp_all
                    · split at h
                      · simp at h; rw [← h]; simp_all
                      · have v3 := ihW _ c b r h
                        rw [v3]; simp_all
                  · rename_i heq
                    split at h
                    · simp at h; rw [← h]; simp_all
                    · have v3 := ihW s2 c b r h
                      rw [v3]; simp_all

/-- A program whose only graphics call (`get_time`) occurs as a
variable-declaration initializer: `fn main() -> void { let t: f32 = get_time(); }`. -/
def missed_graphics_program : Program :=
  { functions := [{ name := "main", params := [], return_type := .Void,
                    body := [.VariableDeclaration "t" .F32
                      (.FunctionCall "get_time" []) false] }]
    structs := [] }

/-- C7 counterexample: `get_time` is in the scanned graphics list and is
called in `main`, yet the pre-scan misses the call because it occurs in a
variable-declaration initializer, which `contains_graphics_calls` never
inspects. -/
theorem graphics_prescan_counterexample :
    graphics_function_names.contains "get_time" = true ∧
    has_graphics_functions missed_graphics_program = false := by
  refine ⟨by decide, ?_⟩
  simp [has_graphics_functions, missed_graphics_program, contains_graphics_calls,
    statement_contains_graphics]

/-- C7 (amended). The pre-scan inspects only expression statements and the
statement lists of blocks, `if` branches and `while` bodies, and inside an
expression only the call head and binary-expression operands: a listed
call in such a position is detected, while the same call occurring as a
variable-declaration initializer, an assignment right-hand side, a return
value, or nested inside the arguments of another call is missed; the
graphics capability ends up constructed exactly when this limited scan
reports a call. -/
theorem graphics_prescan_scope :
    (∀ (name : String) (args : List Expression) (fname : String)
        (params : List Parameter) (rt : Ty),
        name ∈ graphics_function_names →
        has_graphics_functions
          ⟨[⟨fname, params, rt, [.Expression (.FunctionCall name args)]⟩], []⟩ = true) ∧
    (∀ (name : String) (args : List Expression) (fname : String)
        (params : List Parameter) (rt : Ty) (c : Expression),
        name ∈ graphics_function_names →
        has_graphics_functions
          ⟨[⟨fname, params, rt,
            [.While c [.Expression (.FunctionCall name args)]]⟩], []⟩ = true) ∧
    (∀ (name : String) (args : List Expression) (fname : String)
        (params : List Parameter) (rt vt : Ty) (x : String) (m : Bool),
        has_graphics_functions
          ⟨[⟨fname, params, rt,
            [.VariableDeclaration x vt (.FunctionCall name args) m]⟩], []⟩ = false) ∧
    (∀ (name : String) (args : List Expression) (fname : String)
        (params : List Parameter) (rt : Ty) (x : String),
        has_graphics_functions
          ⟨[⟨fname, params, rt, [.Assignment x (.FunctionCall name args)]⟩], []⟩ = false) ∧
    (∀ (name : String) (args : List Expression) (fname : String)
        (params : List Parameter) (rt : Ty),
        has_graphics_functions
          ⟨[⟨fname, params, rt, [.Return (.FunctionCall name args)]⟩], []⟩ = false) ∧
    (∀ (outer name : String) (args : List Expression) (fname : String)
        (params : List Parameter) (rt : Ty),
        outer ∉ graphics_function_names →
        has_graphics_functions
          ⟨[⟨fname, params, rt,
            [.Expression (.FunctionCall outer [.FunctionCall name args])]⟩], []⟩ = false) ∧
    (∀ (fuel : Nat) (s : Interpreter) (engine : GraphicsEngine) (p : Program)
        (s3 : Interpreter),
        s.graphics_engine = none →
        interpret_program fuel s engine p = .ok s3 →
        s3.graphics_engine.isSome = has_graphics_functions p) := by
  refine ⟨?_, ?_, ?_, ?_, ?_, ?_, ?_⟩
  · intro name args fname params rt hmem
    simp [has_graphics_functions, contains_graphics_calls, statement_contains_graphics,
      expression_contains_graphics, hmem]
  · intro name args fname params rt c hmem
    simp [has_graphics_functions, contains_graphics_calls, statement_contains_graphics,
      expression_contains_graphics, hmem]
  · intro name args fname params rt vt x m
    simp [has_graphics_functions, contains_graphics_calls, statement_contains_graphics]
  · intro name args fname params rt x
    simp [has_graphics_functions, contains_graphics_calls, statement_contains_graphics]
  · intro name args fname params rt
    simp [has_graphics_functions, contains_graphics_calls, statement_contains_graphics]
  · intro outer name args fname params rt hmem
    simp [has_graphics_functions, contains_graphics_calls, statement_contains_graphics,
      expression_contains_graphics, hmem]
  · intro fuel s engine p s3 hnone h
    simp only [interpret_program] at h
    cases hm : alookup (register_functions s.functions p.functions) "main" with
    | none => rw [hm] at h; cases h
    | some mf =>
        rw [hm] at h
        simp only [] at h
        by_cases hg : has_graphics_functions p = true
        · rw [if_pos hg] at h
          cases hb : interpret_function fuel
              { s with functions := register_functions s.functions p.functions,
                       graphics_engine := some engine } mf [] with
          | error e => rw [hb, except_error_bind] at h; cases h
          | ok p2 =>
              rw [hb, except_ok_bind] at h
              obtain ⟨s3b, v⟩ := p2
              simp at h
              have hp := (graphics_presence_preserved fuel).2.2.2.1 _ mf [] (s3b, v) hb
              rw [hg, ← h]
              simpa using hp
        · rw [if_neg hg] at h
          cases hb : interpret_function fuel
              { s with functions := register_functions s.functions p.functions } mf [] with
          | error e => rw [hb, except_error_bind] at h; cases h
          | ok p2 =>
              rw [hb, except_ok_bind] at h
              obtain ⟨s3b, v⟩ := p2
              simp at h
              have hp := (graphics_presence_preserved fuel).2.2.2.1 _ mf [] (s3b, v) hb
              rw [← h]
              simp only [Bool.not_eq_true] at hg
              rw [hg]
              simpa [hnone] using hp

/-- Witness for C7 (amended): a `render` call in expression-statement
position is detected, the same call as an initializer is not, and running
the missed program constructs no graphics capability. -/
theorem graphics_prescan_scope_witness :
    has_graphics_functions
      ⟨[⟨"main", [], .Void, [.Expression (.FunctionCall "render" [])]⟩], []⟩ = true ∧
    has_graphics_functions
      ⟨[⟨"main", [], .Void,
        [.VariableDeclaration "t" .F32 (.FunctionCall "get_time" []) false]⟩], []⟩ = false :=
  ⟨graphics_prescan_scope.1 "render" [] "main" [] .Void (by decide),
   graphics_prescan_scope.2.2.1 "get_time" [] "main" [] .Void .F32 "t" false⟩

/-- C10. The type checker accepts a struct initializer that omits declared
fields: only the provided fields are checked (for existence and
compatibility), no error is raised for missing ones, and the runtime value
of the empty initializer is a `Struct` with no fields at all, so it lacks
every declared field. -/
theorem struct_initialization_omits_fields :
    (∀ (tc : TypeChecker) (sname : String) (info : StructInfo),
        alookup tc.structs sname = some info →
        check_expression tc (.StructInitialization sname []) = .ok (tc, .Struct sname)) ∧
    (∀ (tc : TypeChecker) (sname fname : String) (info : StructInfo) (e : Expression),
        alookup tc.structs sname = some info →
        alookup info.fields fname = none →
        check_expression tc (.StructInitialization sname [(fname, e)]) =
          .error (.UndefinedField sname fname)) ∧
    (∀ (fuel : Nat) (s : Interpreter) (sname : String),
        interpret_expression (fuel+2) s (.StructInitialization sname []) =
          .ok (s, .Struct sname [])) ∧
    (∀ (fname : String), alookup ([] : List (String × RuntimeValue)) fname = none) := by
  refine ⟨?_, ?_, ?_, ?_⟩
  · intro tc sname info hs
    simp [check_expression, check_init_fields, hs, except_ok_bind]
  · intro tc sname fname info e hs hf
    simp [check_expression, check_init_fields, hs, hf, except_error_bind]
  · intro fuel s sname
    simp [interpret_expression, interpret_struct_fields, except_ok_bind]
  · intro fname
    rfl

/-- Witness for C10: the empty initializer for struct `P { v : i64 }`
type-checks and evaluates to a struct value lacking the declared field
`v`. -/
theorem struct_initialization_omits_fields_witness :
    check_expression tcExample (.StructInitialization "P" []) =
      .ok (tcExample, .Struct "P") ∧
    interpret_expression 5 st0 (.StructInitialization "P" []) =
      .ok (st0, .Struct "P" []) ∧
    alookup ([] : List (String × RuntimeValue)) "v" = none :=
  ⟨struct_initialization_omits_fields.1 tcExample "P" ⟨[("v", .I64)]⟩ (by decide),
   struct_initialization_omits_fields.2.2.1 3 st0 "P",
   struct_initialization_omits_fields.2.2.2 "v"⟩

/-! ## Lexer (`lexer.rs`)

The source derives a `logos` lexer: at each position the longest match
over all rules wins, a fixed `#[token]` string beats a regex rule of the
same length (keywords beat the identifier rule), the whitespace and
line-comment rules are skipped, an integer literal whose `parse::<i32>()`
overflows makes the callback return `None` (a lexing error), and input
matching no rule at all is a lexing error. -/

/-- `lexer.rs` `Token`. The `Error` variant carries the skip rules in the
source and is never produced as a token. -/
inductive Token where
  | KeywordFn
  | KeywordLet
  | KeywordMut
  | KeywordAs
  | KeywordReturn
  | KeywordIf
  | KeywordElse
  | KeywordWhile
  | KeywordFor
  | KeywordIn
  | KeywordStruct
  | KeywordTrue
  | KeywordFalse
  | KeywordI32
  | KeywordI64
  | KeywordF32
  | KeywordF64
  | KeywordBool
  | KeywordString
  | KeywordVoid
  | Identifier (value : String)
  | IntegerLiteral (value : Int)
  | FloatLiteral (value : F32)
  | StringLiteral (value : String)
  | OperatorAdd
  | OperatorSubtract
  | OperatorMultiply
  | OperatorDivide
  | OperatorModulo
  | OperatorAssign
  | OperatorEq
  | OperatorNeq
  | OperatorNot
  | OperatorLt
  | OperatorGt
  | OperatorLte
  | OperatorGte
  | OperatorAnd
  | OperatorOr
  | Question
  | Colon
  | ParenOpen
  | ParenClose
  | BraceOpen
  | BraceClose
  | BracketOpen
  | BracketClose
  | Semicolon
  | Comma
  | Dot
  | Arrow
  | Error

/-- `[a-zA-Z_]`, the first character of the identifier rule. -/
def is_ident_start (c : Char) : Bool :=
  ('a' ≤ c && c ≤ 'z') || ('A' ≤ c && c ≤ 'Z') || c = '_'

/-- `[a-zA-Z0-9_]`, the following characters of the identifier rule. -/
def is_ident_char (c : Char) : Bool :=
  is_ident_start c || ('0' ≤ c && c ≤ '9')

/-- `[0-9]`. -/
def is_digit_char (c : Char) : Bool :=
  '0' ≤ c && c ≤ '9'

/-- `[ \t\n\f]`, the skipped whitespace characters. -/
def is_ws_char (c : Char) : Bool :=
  c = ' ' || c = '\t' || c = '\n' || c = Char.ofNat 12

/-- Length of the maximal initial run satisfying `p`. -/
def run_length (p : Char → Bool) : List Char → Nat
  | [] => 0
  | c :: cs => if p c then run_length p cs + 1 else 0

/-- Does the first list occur as the start of the second? -/
def starts_with : List Char → List Char → Bool
  | [], _ => true
  | _ :: _, [] => false
  | p :: ps, c :: cs => p = c && starts_with ps cs

/-- The fixed `#[token("…")]` rules of `lexer.rs`, in source order. -/
def fixed_token_rules : List (String × Token) :=
  [("fn", .KeywordFn), ("let", .KeywordLet), ("mut", .KeywordMut), ("as", .KeywordAs),
   ("return", .KeywordReturn), ("if", .KeywordIf), ("else", .KeywordElse),
   ("while", .KeywordWhile), ("for", .KeywordFor), ("in", .KeywordIn),
   ("struct", .KeywordStruct), ("true", .KeywordTrue), ("false", .KeywordFalse),
   ("i32", .KeywordI32), ("i64", .KeywordI64), ("f32", .KeywordF32), ("f64", .KeywordF64),
   ("bool", .KeywordBool), ("string", .KeywordString), ("void", .KeywordVoid),
   ("+", .OperatorAdd), ("-", .OperatorSubtract), ("*", .OperatorMultiply),
   ("/", .OperatorDivide), ("%", .OperatorModulo), ("=", .OperatorAssign),
   ("==", .OperatorEq), ("!=", .OperatorNeq), ("!", .OperatorNot),
   ("<", .OperatorLt), (">", .OperatorGt), ("<=", .OperatorLte), (">=", .OperatorGte),
   ("&&", .OperatorAnd), ("||", .OperatorOr), ("?", .Question), (":", .Colon),
   ("(", .ParenOpen), (")", .ParenClose), ("\x7b", .BraceOpen), ("\x7d", .BraceClose),
   ("[", .BracketOpen), ("]", .BracketClose), (";", .Semicolon), (",", .Comma),
   (".", .Dot), ("->", .Arrow)]

/-- Longest fixed-token rule matching at the current position. -/
def best_fixed_match (l : List Char) : Option (Nat × Token) :=
  fixed_token_rules.foldl
    (fun best rule =>
      if starts_with rule.1.data l then
        match best with
        | none => some (rule.1.length, rule.2)
        | some (len, _) =>
            if rule.1.length > len then some (rule.1.length, rule.2) else best
      else best)
    none

/-- The identifier rule `[a-zA-Z_][a-zA-Z0-9_]*`. -/
def ident_match (l : List Char) : Option (Nat × Token) :=
  match l with
  | [] => none
  | c :: _ =>
      if is_ident_start c then
        let len := run_length is_ident_char l
        some (len, .Identifier (String.mk (l.take len)))
      else none

/-- Numeric value of a digit run. -/
def digits_to_nat (l : List Char) : Nat :=
  l.foldl (fun acc c => acc * 10 + (c.toNat - '0'.toNat)) 0

/-- The integer rule `[0-9]+` with the `parse::<i32>().ok()` callback: a
value exceeding `i32::MAX` makes the callback return `None`, which logos
reports as a lexing error over that span. -/
def int_match (l : List Char) : Option (Nat × Option Token) :=
  let len := run_length is_digit_char l
  if len = 0 then none
  else
    let value := digits_to_nat (l.take len)
    if value ≤ 2147483647 then some (len, some (.IntegerLiteral (Int.ofNat value)))
    else some (len, none)

/-- The float rule `[0-9]+\.[0-9]+`; the decimal text is encoded into the
abstract `F32` payload. -/
def float_match (l : List Char) : Option (Nat × Token) :=
  let d1 := run_length is_digit_char l
  if d1 = 0 then none
  else
    match l.drop d1 with
    | '.' :: rest =>
        let d2 := run_length is_digit_char rest
        if d2 = 0 then none
        else some (d1 + 1 + d2,
          .FloatLiteral ⟨Int.ofNat
            (digits_to_nat (l.take d1) * 1000000000 + digits_to_nat (rest.take d2))⟩)
    | _ => none

/-- Number of characters before the closing quote, if the string literal
is terminated (`[^"]*`). -/
def string_body_length : List Char → Option Nat
  | [] => none
  | '"' :: _ => some 0
  | _ :: rest => (string_body_length rest).map (· + 1)

/-- The string rule `"[^"]*"` with the quote-stripping callback. -/
def string_match (l : List Char) : Option (Nat × Token) :=
  match l with
  | '"' :: rest =>
      match string_body_length rest with
      | some n => some (n + 2, .StringLiteral (String.mk (rest.take n)))
      | none => none
  | _ => none

/-- The skipped line-comment rule `//[^\n]*`. -/
def comment_match (l : List Char) : Option Nat :=
  match l with
  | '/' :: '/' :: rest => some (2 + run_length (fun c => c ≠ '\n') rest)
  | _ => none

/-- The skipped whitespace rule `[ \t\n\f]+`. -/
def ws_match (l : List Char) : Option Nat :=
  let len := run_length is_ws_char l
  if len = 0 then none else some len

/-- Outcome of the best rule at a position: a token, a lexing error (an
overflowing integer literal), or a skipped span. -/
inductive LexStep where
  | tok (t : Token)
  | err
  | skip

/-- The logos longest-match decision at a position: the longest match over
all rules wins, and a fixed `#[token]` beats a regex rule of the same
length (so keywords beat the identifier rule). -/
def best_match (l : List Char) : Option (Nat × LexStep) :=
  let cands : List (Nat × LexStep) :=
    (match ident_match l with | some (n, t) => [(n, .tok t)] | none => []) ++
    (match int_match l with
     | some (n, some t) => [(n, .tok t)]
     | some (n, none) => [(n, .err)]
     | none => []) ++
    (match float_match l with | some (n, t) => [(n, .tok t)] | none => []) ++
    (match string_match l with | some (n, t) => [(n, .tok t)] | none => []) ++
    (match comment_match l with | some n => [(n, .skip)] | none => []) ++
    (match ws_match l with | some n => [(n, .skip)] | none => [])
  let best_regex := cands.foldl
    (fun best c =>
      match best with
      | none => some c
      | some (len, _) => if c.1 > len then some c else best) none
  match best_fixed_match l, best_regex with
  | some (nf, t), some (nr, st) =>
      if nr > nf then some (nr, st) else some (nf, .tok t)
  | some (nf, t), none => some (nf, .tok t)
  | none, some c => some c
  | none, none => none

/-- The raw `logos::Lexer` stream: `Some(Ok(token))` entries, `Some(Err(()))`
for an unrecognized or overflowing span (which consumes at least one
character), skipped spans omitted. The fuel is at least the input length,
so it never runs out. -/
def raw_token_stream : Nat → List Char → List (Except Unit Token)
  | 0, _ => []
  | _+1, [] => []
  | fuel+1, l =>
      match best_match l with
      | some (len, .tok t) => .ok t :: raw_token_stream fuel (l.drop len)
      | some (len, .skip) => raw_token_stream fuel (l.drop len)
      | some (len, .err) => .error () :: raw_token_stream fuel (l.drop len)
      | none => .error () :: raw_token_stream fuel (l.drop 1)

/-- The public token stream of `Iterator for Lexer` (`lexer.rs`,
lines 181-189): `self.inner.next().and_then(Result::ok)` maps a raw `Err`
to `None`, ENDING the iteration at the first lexing error. -/
def lexer_token_stream : Nat → List Char → List Token
  | 0, _ => []
  | _+1, [] => []
  | fuel+1, l =>
      match best_match l with
      | some (len, .tok t) => t :: lexer_token_stream fuel (l.drop len)
      | some (len, .skip) => lexer_token_stream fuel (l.drop len)
      | some (_, .err) => []
      | none => []

/-- The token list observed by any consumer of `Lexer` on the given
input. -/
def tokenize (input : String) : List Token :=
  lexer_token_stream (input.length + 1) input.data

/-- The longest error-free initial segment of the raw lexer stream. -/
def ok_initial_segment : List (Except Unit Token) → List Token
  | [] => []
  | .ok t :: rest => t :: ok_initial_segment rest
  | .error _ :: _ => []

/-- C3 counterexample: on `"let @ x"`, whose `@` matches no lexical rule,
the token stream is just `[KeywordLet]` — no lexical-error token is
emitted, and the valid identifier `x` after the bad character is silently
dropped. -/
theorem lexer_error_counterexample :
    tokenize "let @ x" = [Token.KeywordLet] ∧
    Token.Error ∉ tokenize "let @ x" ∧
    Token.Identifier "x" ∉ tokenize "let @ x" := by
  have h : tokenize "let @ x" = [Token.KeywordLet] := rfl
  refine ⟨h, ?_, ?_⟩ <;> rw [h] <;> simp

/-- C3 (amended). A character sequence matching no lexical rule is not
reported as a token at all: the raw logos stream yields an error result
there, and the `Iterator` wrapper (`.and_then(Result::ok)`) maps it to
`None`, so the public token stream is exactly the longest error-free
initial segment of the raw stream — it ends at the first lexical error,
silently dropping the failure and all following input. -/
theorem lexer_truncates_at_error :
    (∀ (fuel : Nat) (l : List Char),
        lexer_token_stream fuel l = ok_initial_segment (raw_token_stream fuel l)) ∧
    raw_token_stream 10 "let @ x".data =
      [.ok .KeywordLet, .error (), .ok (.Identifier "x")] ∧
    lexer_token_stream 10 "let @ x".data = [.KeywordLet] := by
  refine ⟨?_, rfl, rfl⟩
  intro fuel
  induction fuel with
  | zero => intro l; rfl
  | succ n ih =>
      intro l
      cases l with
      | nil => rfl
      | cons c cs =>
          simp only [lexer_token_stream, raw_token_stream]
          cases hb : best_match (c :: cs) with
          | none => simp [ok_initial_segment]
          | some p =>
              obtain ⟨len, step⟩ := p
              cases step <;> simp [ok_initial_segment, ih]

/-! ## Parser fragment (`parser.rs`) -/

/-- `parser.rs` `ParseError`. -/
inductive ParseError where
  | UnexpectedToken (expected found : String)
  | UnexpectedEof
  | InvalidSyntax (message : String)

/-- The `format!("{:?}", token)` rendering used in parser error messages. -/
def token_debug_string : Token → String
  | .KeywordFn => "KeywordFn"
  | .KeywordLet => "KeywordLet"
  | .KeywordMut => "KeywordMut"
  | .KeywordAs => "KeywordAs"
  | .KeywordReturn => "KeywordReturn"
  | .KeywordIf => "KeywordIf"
  | .KeywordElse => "KeywordElse"
  | .KeywordWhile => "KeywordWhile"
  | .KeywordFor => "KeywordFor"
  | .KeywordIn => "KeywordIn"
  | .KeywordStruct => "KeywordStruct"
  | .KeywordTrue => "KeywordTrue"
  | .KeywordFalse => "KeywordFalse"
  | .KeywordI32 => "KeywordI32"
  | .KeywordI64 => "KeywordI64"
  | .KeywordF32 => "KeywordF32"
  | .KeywordF64 => "KeywordF64"
  | .KeywordBool => "KeywordBool"
  | .KeywordString => "KeywordString"
  | .KeywordVoid => "KeywordVoid"
  | .Identifier v => "Identifier(\"" ++ v ++ "\")"
  | .IntegerLiteral _ => "IntegerLiteral"
  | .FloatLiteral _ => "FloatLiteral"
  | .StringLiteral v => "StringLiteral(\"" ++ v ++ "\")"
  | .OperatorAdd => "OperatorAdd"
  | .OperatorSubtract => "OperatorSubtract"
  | .OperatorMultiply => "OperatorMultiply"
  | .OperatorDivide => "OperatorDivide"
  | .OperatorModulo => "OperatorModulo"
  | .OperatorAssign => "OperatorAssign"
  | .OperatorEq => "OperatorEq"
  | .OperatorNeq => "OperatorNeq"
  | .OperatorNot => "OperatorNot"
  | .OperatorLt => "OperatorLt"
  | .OperatorGt => "OperatorGt"
  | .OperatorLte => "OperatorLte"
  | .OperatorGte => "OperatorGte"
  | .OperatorAnd => "OperatorAnd"
  | .OperatorOr => "OperatorOr"
  | .Question => "Question"
  | .Colon => "Colon"
  | .ParenOpen => "ParenOpen"
  | .ParenClose => "ParenClose"
  | .BraceOpen => "BraceOpen"
  | .BraceClose => "BraceClose"
  | .BracketOpen => "BracketOpen"
  | .BracketClose => "BracketClose"
  | .Semicolon => "Semicolon"
  | .Comma => "Comma"
  | .Dot => "Dot"
  | .Arrow => "Arrow"
  | .Error => "Error"

/-- `parser.rs` `Parser` state: one token of lookahead beyond the current
token, plus the not-yet-pulled remainder of the lazy token stream. -/
structure Parser where
  current_token : Option Token
  peek_token : Option Token
  rest : List Token

/-- `Parser::new` (`parser.rs`, lines 26-36): pull the first two tokens. -/
def parser_new (tokens : List Token) : Parser :=
  match tokens with
  | [] => ⟨none, none, []⟩
  | [t1] => ⟨some t1, none, []⟩
  | t1 :: t2 :: rest => ⟨some t1, some t2, rest⟩

/-- `Parser::next_token` (`parser.rs`, lines 38-41). -/
def next_token (p : Parser) : Parser :=
  match p.rest with
  | [] => ⟨p.peek_token, none, []⟩
  | t :: rest => ⟨p.peek_token, some t, rest⟩

/-- `Parser::parse_type` (`parser.rs`, lines 195-215): the seven type
keywords map to the primitive types and ANY identifier token maps to
`Struct(name)`. -/
def parse_type (p : Parser) : Except ParseError (Ty × Parser) :=
  match p.current_token with
  | some .KeywordI32 => .ok (.I32, next_token p)
  | some .KeywordI64 => .ok (.I64, next_token p)
  | some .KeywordF32 => .ok (.F32, next_token p)
  | some .KeywordF64 => .ok (.F64, next_token p)
  | some .KeywordBool => .ok (.Bool, next_token p)
  | some .KeywordString => .ok (.String, next_token p)
  | some .KeywordVoid => .ok (.Void, next_token p)
  | some (.Identifier name) => .ok (.Struct name, next_token p)
  | other =>
      .error (.UnexpectedToken "type"
        (match other with
         | none => "EOF"
         | some t => token_debug_string t))

/-- Re-parse a printed type: lex the text and run `parse_type` on a fresh
parser, as the embedding program would. -/
def reparse_type (input : String) : Except ParseError Ty :=
  (parse_type (parser_new (tokenize input))).map (fun r => r.1)

/-- C8 counterexample: the struct type named `"i32"` prints as `"i32"`,
which lexes to the `i32` keyword and re-parses as the primitive `I32`, not
as `Struct "i32"` — the round trip fails for the `Struct(name)` case. -/
theorem type_roundtrip_counterexample :
    reparse_type (displayTy (.Struct "i32")) = .ok .I32 ∧
    Ty.I32 ≠ Ty.Struct "i32" :=
  ⟨rfl, fun h => nomatch h⟩

/-- C8 (amended). Pretty-printing then re-parsing reproduces the `Type`
for every primitive type, and for `Struct(name)` exactly when the printed
name lexes as a single `Identifier` token; a struct name that collides
with a type keyword (or does not lex as one identifier) re-parses to a
different type. -/
theorem type_roundtrip :
    (∀ t : Ty, (∀ n, t ≠ .Struct n) → reparse_type (displayTy t) = .ok t) ∧
    (∀ name : String, tokenize name = [.Identifier name] →
        reparse_type (displayTy (.Struct name)) = .ok (.Struct name)) := by
  constructor
  · intro t ht
    cases t
    case Struct n => exact absurd rfl (ht n)
    all_goals rfl
  · intro name h
    have hd : displayTy (.Struct name) = name := rfl
    rw [hd]
    simp [reparse_type, h, parser_new, parse_type, next_token, Except.map]

/-- Witness for C8 (amended) at `I32` and at a well-formed struct name. -/
theorem type_roundtrip_witness :
    reparse_type (displayTy .I32) = .ok .I32 ∧
    reparse_type (displayTy (.Struct "point")) = .ok (.Struct "point") :=
  ⟨type_roundtrip.1 .I32 (fun _ h => nomatch h),
   type_roundtrip.2 "point" rfl⟩

end Aetos
